import Mathlib

/-!
# State reconciliation of arikawa (`state/state_events.go`, `api/pull_vector.go`)

A shallow embedding of `State.hookSession`, `State.onEvent`, `State.editMessage`,
`findReaction`, `storeGuildCreate`, `newErrorStack` and of the methods of `PullVector`,
followed by theorems about them.

Conventions of the embedding

* The `Store` interface is external to `state_events.go`.  It is a parameter here:
  a record of state-passing functions over an arbitrary store state `σ`.  A setter
  returns Go's `error` (`none` for `nil`); a getter returns Go's `(ptr, err)` pair as a
  `Lookup`: the record, the error, or neither (both nil).
* Every call made on the store is appended to a ghost log (`Conn.calls`) together with
  its outcome, so that "which calls were made, in which order, and which failed" can be
  stated.
* `StateLog` is modelled by the list of errors it has received (`State.logged`).
* Records of the `discord` and `gateway` packages carry the fields the code reads or
  writes and a few more that it only copies.  Snowflakes are natural numbers.
  `Reaction.Count` (Go `int`, 64 bits wide) is an integer between `minInt` and `maxInt`;
  `Count++` and `Count--` wrap around (`wrapInt`).
* A nil slice and an empty slice are both the empty list, except for `Guild.Emojis`,
  whose nil-ness the code tests.
-/

namespace Arikawa

/-! ## Records of the `discord` package -/

abbrev Snowflake := Nat

structure Emoji where
  ID : Snowflake
  Name : String
  Animated : Bool
deriving DecidableEq, Repr

structure User where
  ID : Snowflake
  Username : String
deriving DecidableEq, Repr

/-- The record `discord.Reaction`.  `Count` is Go's `int`: an integer from `minInt` to
`maxInt`, on which `Count++` and `Count--` wrap around (`wrapInt`). -/
structure Reaction where
  Count : Int
  Me : Bool
  Emoji : Emoji
deriving DecidableEq, Repr

structure Member where
  User : User
  Nick : String
  RoleIDs : List Snowflake
  Deaf : Bool
  Mute : Bool
deriving DecidableEq, Repr

structure Message where
  ID : Snowflake
  ChannelID : Snowflake
  GuildID : Snowflake
  Author : User
  Content : String
  Reactions : List Reaction
deriving DecidableEq, Repr

structure Channel where
  ID : Snowflake
  GuildID : Snowflake
  Name : String
  Topic : String
deriving DecidableEq, Repr

structure Presence where
  User : User
  GuildID : Snowflake
  Status : String
deriving DecidableEq, Repr

structure VoiceState where
  GuildID : Snowflake
  ChannelID : Snowflake
  UserID : Snowflake
  SessionID : String
deriving DecidableEq, Repr

structure Role where
  ID : Snowflake
  Name : String
deriving DecidableEq, Repr

/-- The record `discord.Guild`; `Emojis` is `none` for a nil slice. -/
structure Guild where
  ID : Snowflake
  Name : String
  Emojis : Option (List Emoji)
deriving DecidableEq, Repr

/-! ## Records of the `gateway` package -/

/-- The payload `gateway.GuildCreateEvent`: an embedded `discord.Guild` and the bundled
lists. -/
structure GuildCreateEvent where
  Guild : Guild
  Unavailable : Bool
  VoiceStates : List VoiceState
  Members : List Member
  Channels : List Channel
  Presences : List Presence
deriving DecidableEq, Repr

structure UserSettings where
  Locale : String
  Theme : String
deriving DecidableEq, Repr

structure UserGuildSettings where
  GuildID : Snowflake
  Muted : Bool
  MessageNotifications : Nat
deriving DecidableEq, Repr

/-- The payload `gateway.ReadyEvent`.  `Settings` is a pointer and `Notes` a map: both
are `none` when nil.  A map is an association list with at most one entry per key. -/
structure ReadyEvent where
  User : User
  PrivateChannels : List Channel
  Guilds : List GuildCreateEvent
  Settings : Option UserSettings
  UserGuildSettings : List UserGuildSettings
  Presences : List Presence
  Notes : Option (List (Snowflake × String))
deriving DecidableEq, Repr

structure GuildDeleteEvent where
  ID : Snowflake
  Unavailable : Bool
deriving DecidableEq, Repr

structure GuildMemberAddEvent where
  Member : Member
  GuildID : Snowflake
deriving DecidableEq, Repr

structure GuildMemberUpdateEvent where
  GuildID : Snowflake
  RoleIDs : List Snowflake
  User : User
  Nick : String
deriving DecidableEq, Repr

structure GuildMemberRemoveEvent where
  GuildID : Snowflake
  User : User
deriving DecidableEq, Repr

structure GuildMembersChunkEvent where
  GuildID : Snowflake
  Members : List Member
  Presences : List Presence
deriving DecidableEq, Repr

structure GuildRoleEvent where
  GuildID : Snowflake
  Role : Role
deriving DecidableEq, Repr

structure GuildRoleDeleteEvent where
  GuildID : Snowflake
  RoleID : Snowflake
deriving DecidableEq, Repr

structure GuildEmojisUpdateEvent where
  GuildID : Snowflake
  Emojis : List Emoji
deriving DecidableEq, Repr

/-- The payloads `gateway.MessageCreateEvent` and `gateway.MessageUpdateEvent`: an
embedded message and a member pointer. -/
structure MessageEvent where
  Message : Message
  Member : Option Member
deriving DecidableEq, Repr

structure MessageDeleteEvent where
  ID : Snowflake
  ChannelID : Snowflake
deriving DecidableEq, Repr

structure MessageDeleteBulkEvent where
  IDs : List Snowflake
  ChannelID : Snowflake
deriving DecidableEq, Repr

/-- The payloads `gateway.MessageReactionAddEvent` and
`gateway.MessageReactionRemoveEvent`. -/
structure MessageReactionEvent where
  UserID : Snowflake
  ChannelID : Snowflake
  MessageID : Snowflake
  Emoji : Emoji
deriving DecidableEq, Repr

structure MessageReactionRemoveAllEvent where
  ChannelID : Snowflake
  MessageID : Snowflake
deriving DecidableEq, Repr

structure MessageReactionRemoveEmoji where
  ChannelID : Snowflake
  MessageID : Snowflake
  Emoji : Emoji
deriving DecidableEq, Repr

structure UserNoteUpdateEvent where
  ID : Snowflake
  Note : String
deriving DecidableEq, Repr

/-- The dynamic type of the value handed to `onEvent`; `Other` is any type the switch
has no case for. -/
inductive Event where
  | Ready (ev : ReadyEvent)
  | GuildCreate (ev : GuildCreateEvent)
  | GuildUpdate (ev : Guild)
  | GuildDelete (ev : GuildDeleteEvent)
  | GuildMemberAdd (ev : GuildMemberAddEvent)
  | GuildMemberUpdate (ev : GuildMemberUpdateEvent)
  | GuildMemberRemove (ev : GuildMemberRemoveEvent)
  | GuildMembersChunk (ev : GuildMembersChunkEvent)
  | GuildRoleCreate (ev : GuildRoleEvent)
  | GuildRoleUpdate (ev : GuildRoleEvent)
  | GuildRoleDelete (ev : GuildRoleDeleteEvent)
  | GuildEmojisUpdate (ev : GuildEmojisUpdateEvent)
  | ChannelCreate (ev : Channel)
  | ChannelUpdate (ev : Channel)
  | ChannelDelete (ev : Channel)
  | ChannelPinsUpdate
  | MessageCreate (ev : MessageEvent)
  | MessageUpdate (ev : MessageEvent)
  | MessageDelete (ev : MessageDeleteEvent)
  | MessageDeleteBulk (ev : MessageDeleteBulkEvent)
  | MessageReactionAdd (ev : MessageReactionEvent)
  | MessageReactionRemove (ev : MessageReactionEvent)
  | MessageReactionRemoveAll (ev : MessageReactionRemoveAllEvent)
  | MessageReactionRemoveEmoji (ev : MessageReactionRemoveEmoji)
  | PresenceUpdate (ev : Presence)
  | PresencesReplace (ev : List Presence)
  | SessionsReplace
  | UserGuildSettingsUpdate (ev : UserGuildSettings)
  | UserSettingsUpdate (ev : UserSettings)
  | UserNoteUpdate (ev : UserNoteUpdateEvent)
  | UserUpdate (ev : User)
  | VoiceStateUpdate (ev : VoiceState)
  | Other
deriving DecidableEq, Repr

/-! ## Errors -/

/-- A Go `error` value: a plain error, or an error wrapped with a message. -/
inductive GoError where
  | plain (msg : String)
  | wrapped (cause : GoError) (msg : String)
deriving DecidableEq, Repr

/-- The function `errors.Wrap`, applied to a non-nil error. -/
def Wrap (err : GoError) (wrap : String) : GoError :=
  GoError.wrapped err wrap

/-- A runtime fault of the Go program. -/
inductive Panic where
  | nilMapWrite
  | indexOutOfRange
  | nilDereference
deriving DecidableEq, Repr

/-! ## Machine integers -/

/-- The largest value of Go's `int`. -/
def maxInt : Int :=
  9223372036854775807

/-- The smallest value of Go's `int`. -/
def minInt : Int :=
  -9223372036854775808

/-- The value Go's `int` arithmetic stores for the mathematical result `x`: `x` reduced
into the range from `minInt` to `maxInt` modulo 2^64. -/
def wrapInt (x : Int) : Int :=
  (x + 9223372036854775808) % 18446744073709551616 - 9223372036854775808

/-! ## The Store interface and the ghost log of calls -/

/-- The result `(ptr, err)` of a getter of the store.  By the contract of the store a
getter that reports an error returns no record, which leaves three results: the record
with a nil error, a nil record with the error, and a nil record with a nil error. -/
inductive Lookup (α : Type) where
  | ok (a : α)
  | error (err : GoError)
  | neither
deriving DecidableEq, Repr

/-- The interface `Store`, over a store state `σ`.  `Reset` is the optional capability
`StoreResetter`: `none` when the dynamic type of the store does not implement it. -/
structure Store (σ : Type) where
  Me : σ → Lookup User × σ
  Message : σ → Snowflake → Snowflake → Lookup Arikawa.Message × σ
  Member : σ → Snowflake → Snowflake → Lookup Arikawa.Member × σ
  MyselfSet : σ → User → Option GoError × σ
  ChannelSet : σ → Channel → Option GoError × σ
  ChannelRemove : σ → Channel → Option GoError × σ
  EmojiSet : σ → Snowflake → List Emoji → Option GoError × σ
  GuildSet : σ → Guild → Option GoError × σ
  GuildRemove : σ → Snowflake → Option GoError × σ
  MemberSet : σ → Snowflake → Arikawa.Member → Option GoError × σ
  MemberRemove : σ → Snowflake → Snowflake → Option GoError × σ
  MessageSet : σ → Arikawa.Message → Option GoError × σ
  MessageRemove : σ → Snowflake → Snowflake → Option GoError × σ
  PresenceSet : σ → Snowflake → Presence → Option GoError × σ
  RoleSet : σ → Snowflake → Role → Option GoError × σ
  RoleRemove : σ → Snowflake → Snowflake → Option GoError × σ
  VoiceStateSet : σ → Snowflake → VoiceState → Option GoError × σ
  VoiceStateRemove : σ → Snowflake → Snowflake → Option GoError × σ
  Reset : Option (σ → Option GoError × σ)

/-- One method call on the store, with its arguments. -/
inductive StoreCall where
  | Reset
  | Me
  | Message (channelID messageID : Snowflake)
  | Member (guildID userID : Snowflake)
  | MyselfSet (me : User)
  | ChannelSet (channel : Channel)
  | ChannelRemove (channel : Channel)
  | EmojiSet (guildID : Snowflake) (emojis : List Emoji)
  | GuildSet (guild : Guild)
  | GuildRemove (id : Snowflake)
  | MemberSet (guildID : Snowflake) (member : Arikawa.Member)
  | MemberRemove (guildID userID : Snowflake)
  | MessageSet (message : Arikawa.Message)
  | MessageRemove (channelID messageID : Snowflake)
  | PresenceSet (guildID : Snowflake) (presence : Presence)
  | RoleSet (guildID : Snowflake) (role : Role)
  | RoleRemove (guildID roleID : Snowflake)
  | VoiceStateSet (guildID : Snowflake) (voiceState : VoiceState)
  | VoiceStateRemove (guildID userID : Snowflake)
deriving DecidableEq, Repr

/-- An entry of the ghost log: the call and the error it returned (`none` for nil). -/
structure CallRecord where
  call : StoreCall
  err : Option GoError
deriving DecidableEq, Repr

/-- A call failed when it returned a non-nil error. -/
def CallRecord.failed (r : CallRecord) : Bool :=
  r.err.isSome

/-- The store as the program holds it: its current state and the ghost log of the calls
made on it so far, oldest first. -/
structure Conn (σ : Type) where
  st : σ
  calls : List CallRecord

/-- Records a call that returns an error only: the store moves to the state the method
returned and the log grows by the call and its error. -/
def Conn.invoke {σ : Type} (c : Conn σ) (call : StoreCall) (out : Option GoError × σ) :
    Option GoError × Conn σ :=
  (out.1, { st := out.2, calls := c.calls ++ [{ call := call, err := out.1 }] })

/-- The error of a getter result, `none` when the error is nil. -/
def lookupErr {α : Type} : Lookup α → Option GoError
  | .ok _ => none
  | .error e => some e
  | .neither => none

/-- Records a call of a getter. -/
def Conn.lookup {σ α : Type} (c : Conn σ) (call : StoreCall) (out : Lookup α × σ) :
    Lookup α × Conn σ :=
  (out.1, { st := out.2, calls := c.calls ++ [{ call := call, err := lookupErr out.1 }] })

/-! One wrapper per method of the interface: the method is run on the current store
state and the call is recorded under its own name and arguments. -/

def Conn.Me {σ : Type} (S : Store σ) (c : Conn σ) : Lookup User × Conn σ :=
  c.lookup StoreCall.Me (S.Me c.st)

def Conn.Message {σ : Type} (S : Store σ) (c : Conn σ) (channelID messageID : Snowflake) :
    Lookup Arikawa.Message × Conn σ :=
  c.lookup (StoreCall.Message channelID messageID) (S.Message c.st channelID messageID)

def Conn.Member {σ : Type} (S : Store σ) (c : Conn σ) (guildID userID : Snowflake) :
    Lookup Arikawa.Member × Conn σ :=
  c.lookup (StoreCall.Member guildID userID) (S.Member c.st guildID userID)

def Conn.MyselfSet {σ : Type} (S : Store σ) (c : Conn σ) (me : User) :
    Option GoError × Conn σ :=
  c.invoke (StoreCall.MyselfSet me) (S.MyselfSet c.st me)

def Conn.ChannelSet {σ : Type} (S : Store σ) (c : Conn σ) (channel : Channel) :
    Option GoError × Conn σ :=
  c.invoke (StoreCall.ChannelSet channel) (S.ChannelSet c.st channel)

def Conn.ChannelRemove {σ : Type} (S : Store σ) (c : Conn σ) (channel : Channel) :
    Option GoError × Conn σ :=
  c.invoke (StoreCall.ChannelRemove channel) (S.ChannelRemove c.st channel)

def Conn.EmojiSet {σ : Type} (S : Store σ) (c : Conn σ)
    (guildID : Snowflake) (emojis : List Emoji) :
    Option GoError × Conn σ :=
  c.invoke (StoreCall.EmojiSet guildID emojis) (S.EmojiSet c.st guildID emojis)

def Conn.GuildSet {σ : Type} (S : Store σ) (c : Conn σ) (guild : Guild) :
    Option GoError × Conn σ :=
  c.invoke (StoreCall.GuildSet guild) (S.GuildSet c.st guild)

def Conn.GuildRemove {σ : Type} (S : Store σ) (c : Conn σ) (id : Snowflake) :
    Option GoError × Conn σ :=
  c.invoke (StoreCall.GuildRemove id) (S.GuildRemove c.st id)

def Conn.MemberSet {σ : Type} (S : Store σ) (c : Conn σ)
    (guildID : Snowflake) (member : Arikawa.Member) :
    Option GoError × Conn σ :=
  c.invoke (StoreCall.MemberSet guildID member) (S.MemberSet c.st guildID member)

def Conn.MemberRemove {σ : Type} (S : Store σ) (c : Conn σ) (guildID userID : Snowflake) :
    Option GoError × Conn σ :=
  c.invoke (StoreCall.MemberRemove guildID userID) (S.MemberRemove c.st guildID userID)

def Conn.MessageSet {σ : Type} (S : Store σ) (c : Conn σ) (message : Arikawa.Message) :
    Option GoError × Conn σ :=
  c.invoke (StoreCall.MessageSet message) (S.MessageSet c.st message)

def Conn.MessageRemove {σ : Type} (S : Store σ) (c : Conn σ) (channelID messageID : Snowflake) :
    Option GoError × Conn σ :=
  c.invoke (StoreCall.MessageRemove channelID messageID) (S.MessageRemove c.st channelID messageID)

def Conn.PresenceSet {σ : Type} (S : Store σ) (c : Conn σ)
    (guildID : Snowflake) (presence : Presence) :
    Option GoError × Conn σ :=
  c.invoke (StoreCall.PresenceSet guildID presence) (S.PresenceSet c.st guildID presence)

def Conn.RoleSet {σ : Type} (S : Store σ) (c : Conn σ) (guildID : Snowflake) (role : Role) :
    Option GoError × Conn σ :=
  c.invoke (StoreCall.RoleSet guildID role) (S.RoleSet c.st guildID role)

def Conn.RoleRemove {σ : Type} (S : Store σ) (c : Conn σ) (guildID roleID : Snowflake) :
    Option GoError × Conn σ :=
  c.invoke (StoreCall.RoleRemove guildID roleID) (S.RoleRemove c.st guildID roleID)

def Conn.VoiceStateSet {σ : Type} (S : Store σ) (c : Conn σ)
    (guildID : Snowflake) (voiceState : VoiceState) :
    Option GoError × Conn σ :=
  c.invoke (StoreCall.VoiceStateSet guildID voiceState) (S.VoiceStateSet c.st guildID voiceState)

def Conn.VoiceStateRemove {σ : Type} (S : Store σ) (c : Conn σ) (guildID userID : Snowflake) :
    Option GoError × Conn σ :=
  c.invoke (StoreCall.VoiceStateRemove guildID userID) (S.VoiceStateRemove c.st guildID userID)

/-! ## The engine state -/

/-- The fields of `State` that `onEvent` touches: the store (with the ghost log), the
snapshot `Ready`, and the errors handed to `StateLog` so far, oldest first. -/
structure State (σ : Type) where
  Store : Conn σ
  Ready : ReadyEvent
  logged : List GoError

/-- The method `State.stateErr`: log the wrapped error. -/
def stateErr {σ : Type} (s : State σ) (err : GoError) (wrap : String) : State σ :=
  { s with logged := s.logged ++ [Wrap err wrap] }

/-- The method `State.batchLog`: log every error of the slice, in order. -/
def batchLog {σ : Type} (s : State σ) (errors : List GoError) : State σ :=
  errors.foldl (fun s err => { s with logged := s.logged ++ [err] }) s

/-- The statement `if err := <call>; err != nil { s.stateErr(err, wrap) }`, the call
having been made on the store of `s` with result `r`. -/
def State.check {σ : Type} (s : State σ) (r : Option GoError × Conn σ) (wrap : String) :
    State σ :=
  match r.1 with
  | some err => stateErr { s with Store := r.2 } err wrap
  | none => { s with Store := r.2 }

/-! ## Helper functions of `state_events.go` -/

/-- The loop of `findReaction` from position `i` on, `rs` being the records from that
position: the index of the first record with the emoji's ID and name, or -1. -/
def findReactionFrom (rs : List Reaction) (emoji : Emoji) (i : Nat) : Int :=
  match rs with
  | [] => -1
  | r :: rest =>
    if r.Emoji.ID = emoji.ID ∧ r.Emoji.Name = emoji.Name then (i : Int)
    else findReactionFrom rest emoji (i + 1)

/-- The function `findReaction`. -/
def findReaction (rs : List Reaction) (emoji : Emoji) : Int :=
  findReactionFrom rs emoji 0

/-- The function `newErrorStack`: the stack it allocates is empty. -/
def newErrorStack : List GoError :=
  []

/-- The closure returned by `newErrorStack`: append the wrapped error to the stack. -/
def errs (stack : List GoError) (err : GoError) (wrap : String) : List GoError :=
  stack ++ [Wrap err wrap]

/-- The statement `if err := <call>; err != nil { errs(err, wrap) }` of
`storeGuildCreate`, the call having returned `r`. -/
def pushIfErr {σ : Type} (stack : List GoError) (r : Option GoError × Conn σ)
    (wrap : String) : List GoError × Conn σ :=
  match r.1 with
  | some err => (errs stack err wrap, r.2)
  | none => (stack, r.2)

/-- The function `storeGuildCreate`; the result is the returned slice and the store
after the calls. -/
def storeGuildCreate {σ : Type} (S : Store σ) (store : Conn σ) (guild : GuildCreateEvent) :
    List GoError × Conn σ :=
  if guild.Unavailable then
    ([], store)
  else
    let acc := pushIfErr newErrorStack (store.GuildSet S guild.Guild)
      "failed to set guild in Ready"
    -- Handle guild emojis
    let acc :=
      match guild.Guild.Emojis with
      | some emojis =>
        pushIfErr acc.1 (acc.2.EmojiSet S guild.Guild.ID emojis) "failed to set guild emojis"
      | none => acc
    -- Handle guild member
    let acc := guild.Members.foldl
      (fun acc m =>
        pushIfErr acc.1 (acc.2.MemberSet S guild.Guild.ID m)
          "failed to set guild member in Ready")
      acc
    -- Handle guild channels
    let acc := guild.Channels.foldl
      (fun acc ch =>
        let ch := { ch with GuildID := guild.Guild.ID }
        pushIfErr acc.1 (acc.2.ChannelSet S ch) "failed to set guild channel in Ready")
      acc
    -- Handle guild presences
    let acc := guild.Presences.foldl
      (fun acc p =>
        pushIfErr acc.1 (acc.2.PresenceSet S guild.Guild.ID p)
          "failed to set guild presence in Ready")
      acc
    -- Handle guild voice states
    let acc := guild.VoiceStates.foldl
      (fun acc v =>
        pushIfErr acc.1 (acc.2.VoiceStateSet S guild.Guild.ID v)
          "failed to set guild voice state in Ready")
      acc
    acc

/-- The result of an edit closure: the message as the closure left it, the boolean it
returned, and the store after the calls it made. -/
structure Edit (σ : Type) where
  m : Message
  changed : Bool
  store : Conn σ

/-- The method `State.editMessage`; `fn` receives the store it captured and the message
behind the pointer.  With a nil error and a nil pointer `fn` is entered on nil, and each
closure of this file dereferences its argument in its first statement. -/
def editMessage {σ : Type} (S : Store σ) (s : State σ) (ch msg : Snowflake)
    (fn : Conn σ → Message → Except Panic (Edit σ)) : Except Panic (State σ) :=
  let r := s.Store.Message S ch msg
  match r.1 with
  | .error _ => .ok { s with Store := r.2 }
  | .neither => .error Panic.nilDereference
  | .ok m =>
    match fn r.2 m with
    | .error p => .error p
    | .ok e =>
      if !e.changed then
        .ok { s with Store := e.store }
      else
        .ok (State.check { s with Store := e.store } (e.store.MessageSet S e.m)
          "failed to save message in reaction add")

/-- The expression `append(rs[:i], rs[i+1:]...)`; slicing past the length is a fault. -/
def cut (rs : List Reaction) (i : Nat) : Except Panic (List Reaction) :=
  if i + 1 ≤ rs.length then .ok (rs.take i ++ rs.drop (i + 1))
  else .error Panic.indexOutOfRange

/-- The closure of the `MessageReactionAddEvent` case. -/
def reactionAdd {σ : Type} (S : Store σ) (ev : MessageReactionEvent) (store : Conn σ)
    (m : Message) : Except Panic (Edit σ) :=
  let i := findReaction m.Reactions ev.Emoji
  if i > -1 then
    match m.Reactions[i.toNat]? with
    | none => .error Panic.indexOutOfRange
    | some r =>
      .ok { m := { m with
                   Reactions := m.Reactions.set i.toNat
                     { r with Count := wrapInt (r.Count + 1) } },
            changed := true, store := store }
  else
    let q := store.Me S
    let me : Bool :=
      match q.1 with
      | .ok u => decide (ev.UserID = u.ID)
      | .error _ => false
      | .neither => false
    .ok { m := { m with Reactions := m.Reactions ++ [{ Count := 1, Me := me, Emoji := ev.Emoji }] },
          changed := true, store := q.2 }

/-- The closure of the `MessageReactionRemoveEvent` case. -/
def reactionRemove {σ : Type} (S : Store σ) (ev : MessageReactionEvent) (store : Conn σ)
    (m : Message) : Except Panic (Edit σ) :=
  let i := findReaction m.Reactions ev.Emoji
  if i < 0 then
    .ok { m := m, changed := false, store := store }
  else
    match m.Reactions[i.toNat]? with
    | none => .error Panic.indexOutOfRange
    | some r0 =>
      let r : Reaction := { r0 with Count := wrapInt (r0.Count - 1) }
      let rs := m.Reactions.set i.toNat r
      if r.Count < 1 then
        -- Remove the reaction.
        match cut rs i.toNat with
        | .error p => .error p
        | .ok rs => .ok { m := { m with Reactions := rs }, changed := true, store := store }
      else if r.Me then
        let q := store.Me S
        match q.1 with
        | .ok u =>
          if ev.UserID = u.ID then
            .ok { m := { m with Reactions := rs.set i.toNat { r with Me := false } },
                  changed := true, store := q.2 }
          else
            .ok { m := { m with Reactions := rs }, changed := true, store := q.2 }
        | .error _ => .ok { m := { m with Reactions := rs }, changed := true, store := q.2 }
        | .neither => .error Panic.nilDereference
      else
        .ok { m := { m with Reactions := rs }, changed := true, store := store }

/-- The closure of the `MessageReactionRemoveAllEvent` case. -/
def reactionRemoveAll {σ : Type} (store : Conn σ) (m : Message) : Except Panic (Edit σ) :=
  .ok { m := { m with Reactions := [] }, changed := true, store := store }

/-- The closure of the `MessageReactionRemoveEmoji` case. -/
def reactionRemoveEmoji {σ : Type} (ev : MessageReactionRemoveEmoji) (store : Conn σ)
    (m : Message) : Except Panic (Edit σ) :=
  let i := findReaction m.Reactions ev.Emoji
  if i < 0 then
    .ok { m := m, changed := false, store := store }
  else
    match cut m.Reactions i.toNat with
    | .error p => .error p
    | .ok rs => .ok { m := { m with Reactions := rs }, changed := true, store := store }

/-- Modelled from the spec: the method `GuildMemberUpdateEvent.Update` of package
`gateway` is not part of the sources at hand.  It merges the fields the update event
carries (roles, user, nick) onto the member and leaves the other fields untouched. -/
def GuildMemberUpdateEvent.Update (ev : GuildMemberUpdateEvent) (m : Member) : Member :=
  { m with RoleIDs := ev.RoleIDs, User := ev.User, Nick := ev.Nick }

/-- The zero value `discord.Member{}`. -/
def zeroMember : Member :=
  { User := { ID := 0, Username := "" }, Nick := "", RoleIDs := [], Deaf := false,
    Mute := false }

/-- The assignment `m[k] = v` on a non-nil map. -/
def mapSet (m : List (Snowflake × String)) (k : Snowflake) (v : String) :
    List (Snowflake × String) :=
  match m with
  | [] => [(k, v)]
  | (k0, v0) :: rest => if k0 = k then (k, v) :: rest else (k0, v0) :: mapSet rest k v

/-! ## The method `State.onEvent` -/

/-- The method `State.onEvent`, one case per case of the type switch.  The result is the
state after the event, or the fault that stopped it. -/
def onEvent {σ : Type} (S : Store σ) (s : State σ) : Event → Except Panic (State σ)
  | .Ready ev =>
    -- Reset the store before proceeding.
    let s :=
      match S.Reset with
      | some reset =>
        s.check (s.Store.invoke StoreCall.Reset (reset s.Store.st))
          "Failed to reset state on READY"
      | none => s
    -- Set Ready to the state
    let s := { s with Ready := ev }
    -- Handle presences
    let s := ev.Presences.foldl
      (fun s p => s.check (s.Store.PresenceSet S 0 p) "failed to set global presence") s
    -- Handle guilds
    let s := ev.Guilds.foldl
      (fun s g =>
        let r := storeGuildCreate S s.Store g
        batchLog { s with Store := r.2 } r.1)
      s
    -- Handle private channels
    let s := ev.PrivateChannels.foldl
      (fun s ch => s.check (s.Store.ChannelSet S ch) "failed to set channel in state") s
    -- Handle user
    .ok (s.check (s.Store.MyselfSet S ev.User) "failed to set self in state")
  | .GuildCreate ev =>
    let r := storeGuildCreate S s.Store ev
    .ok (batchLog { s with Store := r.2 } r.1)
  | .GuildUpdate ev =>
    .ok (s.check (s.Store.GuildSet S ev) "failed to update guild in state")
  | .GuildDelete ev =>
    let r := s.Store.GuildRemove S ev.ID
    match r.1 with
    | some err =>
      if !ev.Unavailable then
        .ok (stateErr { s with Store := r.2 } err "failed to delete guild in state")
      else
        .ok { s with Store := r.2 }
    | none => .ok { s with Store := r.2 }
  | .GuildMemberAdd ev =>
    .ok (s.check (s.Store.MemberSet S ev.GuildID ev.Member) "failed to add a member in state")
  | .GuildMemberUpdate ev =>
    let r := s.Store.Member S ev.GuildID ev.User.ID
    let s := { s with Store := r.2 }
    match r.1 with
    | .neither => .error Panic.nilDereference -- Update and `*m` dereference the nil pointer
    | .ok m =>
      -- Update available fields from ev into m
      let m := ev.Update m
      .ok (s.check (s.Store.MemberSet S ev.GuildID m) "failed to update a member in state")
    | .error _ =>
      -- We can't do much here.
      let m := ev.Update zeroMember
      .ok (s.check (s.Store.MemberSet S ev.GuildID m) "failed to update a member in state")
  | .GuildMemberRemove ev =>
    .ok (s.check (s.Store.MemberRemove S ev.GuildID ev.User.ID)
      "failed to remove a member in state")
  | .GuildMembersChunk ev =>
    let s := ev.Members.foldl
      (fun s m =>
        s.check (s.Store.MemberSet S ev.GuildID m) "failed to add a member from chunk in state")
      s
    let s := ev.Presences.foldl
      (fun s p =>
        s.check (s.Store.PresenceSet S ev.GuildID p)
          "failed to add a presence from chunk in state")
      s
    .ok s
  | .GuildRoleCreate ev =>
    .ok (s.check (s.Store.RoleSet S ev.GuildID ev.Role) "failed to add a role in state")
  | .GuildRoleUpdate ev =>
    .ok (s.check (s.Store.RoleSet S ev.GuildID ev.Role) "failed to update a role in state")
  | .GuildRoleDelete ev =>
    .ok (s.check (s.Store.RoleRemove S ev.GuildID ev.RoleID) "failed to remove a role in state")
  | .GuildEmojisUpdate ev =>
    .ok (s.check (s.Store.EmojiSet S ev.GuildID ev.Emojis) "failed to update emojis in state")
  | .ChannelCreate ev =>
    .ok (s.check (s.Store.ChannelSet S ev) "failed to create a channel in state")
  | .ChannelUpdate ev =>
    .ok (s.check (s.Store.ChannelSet S ev) "failed to update a channel in state")
  | .ChannelDelete ev =>
    .ok (s.check (s.Store.ChannelRemove S ev) "failed to remove a channel in state")
  | .ChannelPinsUpdate => .ok s -- not tracked.
  | .MessageCreate ev =>
    .ok (s.check (s.Store.MessageSet S ev.Message) "failed to add a message in state")
  | .MessageUpdate ev =>
    .ok (s.check (s.Store.MessageSet S ev.Message) "failed to update a message in state")
  | .MessageDelete ev =>
    .ok (s.check (s.Store.MessageRemove S ev.ChannelID ev.ID)
      "failed to delete a message in state")
  | .MessageDeleteBulk ev =>
    .ok (ev.IDs.foldl
      (fun s id =>
        s.check (s.Store.MessageRemove S ev.ChannelID id)
          "failed to delete bulk messages in state")
      s)
  | .MessageReactionAdd ev => editMessage S s ev.ChannelID ev.MessageID (reactionAdd S ev)
  | .MessageReactionRemove ev =>
    editMessage S s ev.ChannelID ev.MessageID (reactionRemove S ev)
  | .MessageReactionRemoveAll ev =>
    editMessage S s ev.ChannelID ev.MessageID reactionRemoveAll
  | .MessageReactionRemoveEmoji ev =>
    editMessage S s ev.ChannelID ev.MessageID (reactionRemoveEmoji ev)
  | .PresenceUpdate ev =>
    .ok (s.check (s.Store.PresenceSet S ev.GuildID ev) "failed to update presence in state")
  | .PresencesReplace ev =>
    .ok (ev.foldl
      (fun s p =>
        s.check (s.Store.PresenceSet S p.GuildID p) "failed to update presence in state")
      s)
  | .SessionsReplace => .ok s
  | .UserGuildSettingsUpdate ev =>
    .ok { s with
      Ready := { s.Ready with
        UserGuildSettings := s.Ready.UserGuildSettings.map
          (fun ugs => if ugs.GuildID = ev.GuildID then ev else ugs) } }
  | .UserSettingsUpdate ev => .ok { s with Ready := { s.Ready with Settings := some ev } }
  | .UserNoteUpdate ev =>
    match s.Ready.Notes with
    | none => .error Panic.nilMapWrite
    | some notes =>
      .ok { s with Ready := { s.Ready with Notes := some (mapSet notes ev.ID ev.Note) } }
  | .UserUpdate ev =>
    .ok (s.check (s.Store.MyselfSet S ev) "failed to update myself from USER_UPDATE")
  | .VoiceStateUpdate ev =>
    if ev.ChannelID = 0 then
      .ok (s.check (s.Store.VoiceStateRemove S ev.GuildID ev.UserID)
        "failed to remove voice state from state")
    else
      .ok (s.check (s.Store.VoiceStateSet S ev.GuildID ev)
        "failed to update voice state in state")
  | .Other => .ok s


/-- The store calls the specification lists for the ingestion of an available community:
the community record, the emoji set when the list is present, every member, every
channel with the community id filled in, every presence, every voice state. -/
def guildCreateCalls (g : GuildCreateEvent) : List StoreCall :=
  [StoreCall.GuildSet g.Guild]
    ++ (match g.Guild.Emojis with
        | some emojis => [StoreCall.EmojiSet g.Guild.ID emojis]
        | none => [])
    ++ g.Members.map (fun m => StoreCall.MemberSet g.Guild.ID m)
    ++ g.Channels.map (fun ch => StoreCall.ChannelSet { ch with GuildID := g.Guild.ID })
    ++ g.Presences.map (fun p => StoreCall.PresenceSet g.Guild.ID p)
    ++ g.VoiceStates.map (fun v => StoreCall.VoiceStateSet g.Guild.ID v)

/-- The store method a call stands for, run on a store state; of a getter's result only
the error is kept.  A store without the reset capability has no `Reset` to run. -/
def Store.perform {σ : Type} (S : Store σ) (st : σ) : StoreCall → Option GoError × σ
  | .Reset =>
    match S.Reset with
    | some reset => reset st
    | none => (none, st)
  | .Me => (lookupErr (S.Me st).1, (S.Me st).2)
  | .Message channelID messageID =>
    (lookupErr (S.Message st channelID messageID).1, (S.Message st channelID messageID).2)
  | .Member guildID userID =>
    (lookupErr (S.Member st guildID userID).1, (S.Member st guildID userID).2)
  | .MyselfSet me => S.MyselfSet st me
  | .ChannelSet channel => S.ChannelSet st channel
  | .ChannelRemove channel => S.ChannelRemove st channel
  | .EmojiSet guildID emojis => S.EmojiSet st guildID emojis
  | .GuildSet guild => S.GuildSet st guild
  | .GuildRemove id => S.GuildRemove st id
  | .MemberSet guildID member => S.MemberSet st guildID member
  | .MemberRemove guildID userID => S.MemberRemove st guildID userID
  | .MessageSet message => S.MessageSet st message
  | .MessageRemove channelID messageID => S.MessageRemove st channelID messageID
  | .PresenceSet guildID presence => S.PresenceSet st guildID presence
  | .RoleSet guildID role => S.RoleSet st guildID role
  | .RoleRemove guildID roleID => S.RoleRemove st guildID roleID
  | .VoiceStateSet guildID voiceState => S.VoiceStateSet st guildID voiceState
  | .VoiceStateRemove guildID userID => S.VoiceStateRemove st guildID userID

/-- Runs the calls one after the other on the store, whatever each returns; the result
is the record of every call with its error, and the store state at the end. -/
def Store.replay {σ : Type} (S : Store σ) (st : σ) : List StoreCall → List CallRecord × σ
  | [] => ([], st)
  | call :: rest =>
    let out := S.perform st call
    let tail := S.replay out.2 rest
    ({ call := call, err := out.1 } :: tail.1, tail.2)

/-- Going from `a` to `b`, the program made exactly the calls `cs` on the store, in
order and each one whatever the earlier ones returned, and pushed one error per failed
call. -/
def Grows {σ : Type} (S : Store σ) (a b : List GoError × Conn σ) (cs : List StoreCall) :
    Prop :=
  b.2.st = (S.replay a.2.st cs).2 ∧ b.2.calls = a.2.calls ++ (S.replay a.2.st cs).1 ∧
    b.1.length = a.1.length + (S.replay a.2.st cs).1.countP (fun r => r.failed)

/-- The channels handed to `ChannelSet` by a sequence of calls, in order. -/
def channelSets (cs : List StoreCall) : List Channel :=
  cs.filterMap
    (fun call =>
      match call with
      | .ChannelSet channel => some channel
      | _ => none)

/-- The diagnostics one checked call adds: the wrapped error when it failed, nothing
when it succeeded. -/
def diag (err : Option GoError) (wrap : String) : List GoError :=
  match err with
  | some e => [Wrap e wrap]
  | none => []

/-- The calls made on the store between `before` and `after`. -/
def callsSince {σ : Type} (before after : Conn σ) : List CallRecord :=
  after.calls.drop before.calls.length

/-- Emoji identity of the specification: the record `r` is the record for `emoji` when
both the emoji id and the emoji name agree. -/
def sameEmoji (emoji : Emoji) (r : Reaction) : Prop :=
  r.Emoji.ID = emoji.ID ∧ r.Emoji.Name = emoji.Name

instance (emoji : Emoji) (r : Reaction) : Decidable (sameEmoji emoji r) := by
  unfold sameEmoji
  infer_instance

/-- The "current-user reacted" flag of the specification: true exactly when the self-user
lookup yielded a user and that user's id is the acting user's id. -/
def selfFlag (me : Lookup User) (userID : Snowflake) : Bool :=
  match me with
  | .ok u => decide (userID = u.ID)
  | .error _ => false
  | .neither => false

/-! ## Worked examples: a scripted store and sample payloads -/

/-- The answer of the scripted store to a setter call. -/
def answer (refuse : StoreCall → Bool) (call : StoreCall) : Option GoError :=
  if refuse call then some (GoError.plain "refused") else none

/-- A store that answers `Me` and `Message` with the given results, finds no member,
and fails exactly the setter calls that `refuse` picks.  Its state counts the calls it
has served; it has the reset capability. -/
def scriptedStore (me : Lookup User) (msg : Lookup Message)
    (refuse : StoreCall → Bool) : Store Nat where
  Me := fun n => (me, n + 1)
  Message := fun n _ _ => (msg, n + 1)
  Member := fun n _ _ => (.error (GoError.plain "not found"), n + 1)
  MyselfSet := fun n u => (answer refuse (.MyselfSet u), n + 1)
  ChannelSet := fun n ch => (answer refuse (.ChannelSet ch), n + 1)
  ChannelRemove := fun n ch => (answer refuse (.ChannelRemove ch), n + 1)
  EmojiSet := fun n g es => (answer refuse (.EmojiSet g es), n + 1)
  GuildSet := fun n g => (answer refuse (.GuildSet g), n + 1)
  GuildRemove := fun n id => (answer refuse (.GuildRemove id), n + 1)
  MemberSet := fun n g m => (answer refuse (.MemberSet g m), n + 1)
  MemberRemove := fun n g u => (answer refuse (.MemberRemove g u), n + 1)
  MessageSet := fun n m => (answer refuse (.MessageSet m), n + 1)
  MessageRemove := fun n c m => (answer refuse (.MessageRemove c m), n + 1)
  PresenceSet := fun n g p => (answer refuse (.PresenceSet g p), n + 1)
  RoleSet := fun n g r => (answer refuse (.RoleSet g r), n + 1)
  RoleRemove := fun n g r => (answer refuse (.RoleRemove g r), n + 1)
  VoiceStateSet := fun n g v => (answer refuse (.VoiceStateSet g v), n + 1)
  VoiceStateRemove := fun n g u => (answer refuse (.VoiceStateRemove g u), n + 1)
  Reset := some (fun _ => (answer refuse .Reset, 0))

def alice : User :=
  { ID := 11, Username := "alice" }

def bob : User :=
  { ID := 12, Username := "bob" }

def thumbsUp : Emoji :=
  { ID := 0, Name := "+1", Animated := false }

def party : Emoji :=
  { ID := 900, Name := "party", Animated := true }

def aliceMember : Member :=
  { User := alice, Nick := "al", RoleIDs := [1], Deaf := false, Mute := false }

def bobMember : Member :=
  { User := bob, Nick := "", RoleIDs := [], Deaf := false, Mute := true }

/-- A community with two members, two channels whose own community id is unset or wrong,
one presence and one voice state. -/
def sampleGuild : GuildCreateEvent :=
  { Guild := { ID := 7, Name := "g", Emojis := some [party] },
    Unavailable := false,
    VoiceStates := [{ GuildID := 7, ChannelID := 71, UserID := 12, SessionID := "s" }],
    Members := [aliceMember, bobMember],
    Channels := [{ ID := 70, GuildID := 0, Name := "general", Topic := "" },
                 { ID := 71, GuildID := 5, Name := "voice", Topic := "t" }],
    Presences := [{ User := alice, GuildID := 7, Status := "online" }] }

/-- The same community, marked unavailable. -/
def sampleGuildUnavailable : GuildCreateEvent :=
  { sampleGuild with Unavailable := true }

/-- A state in which no event has been handled: empty snapshot, nothing logged, no call
made. -/
def freshState : State Nat :=
  { Store := { st := 0, calls := [] },
    Ready := { User := { ID := 0, Username := "" }, PrivateChannels := [], Guilds := [],
               Settings := none, UserGuildSettings := [], Presences := [], Notes := none },
    logged := [] }

/-- A store that fails the upsert of member `alice` only. -/
def refuseAlice : Store Nat :=
  scriptedStore (.ok alice) (.error (GoError.plain "not found"))
    (fun call => decide (call = StoreCall.MemberSet 7 aliceMember))

/-- A cached message in channel 70 with the given reaction list. -/
def cachedMessage (rs : List Reaction) : Message :=
  { ID := 500, ChannelID := 70, GuildID := 7, Author := bob, Content := "hi", Reactions := rs }

/-- A store whose local user is `alice`, that has `cachedMessage rs` cached and fails no
call. -/
def aliceStore (rs : List Reaction) : Store Nat :=
  scriptedStore (.ok alice) (.ok (cachedMessage rs)) (fun _ => false)

/-- The reaction event for `thumbsUp` on the cached message by the given user. -/
def thumbsUpBy (userID : Snowflake) : MessageReactionEvent :=
  { UserID := userID, ChannelID := 70, MessageID := 500, Emoji := thumbsUp }

/-- A record for `party` with count 3, not by the local user. -/
def partyRecord : Reaction :=
  { Count := 3, Me := false, Emoji := party }

/-- The remove-all event for the cached message. -/
def removeAllEvent : MessageReactionRemoveAllEvent :=
  { ChannelID := 70, MessageID := 500 }

/-- The remove-emoji event for `thumbsUp` on the cached message. -/
def removeThumbsUp : MessageReactionRemoveEmoji :=
  { ChannelID := 70, MessageID := 500, Emoji := thumbsUp }

/-- A record for `thumbsUp` with count 5, by the local user. -/
def thumbsUpRecord : Reaction :=
  { Count := 5, Me := true, Emoji := thumbsUp }

/-- The channel and the message a reaction event is about; `none` for an event of any
other kind. -/
def Event.reactionTarget : Event → Option (Snowflake × Snowflake)
  | .MessageReactionAdd ev => some (ev.ChannelID, ev.MessageID)
  | .MessageReactionRemove ev => some (ev.ChannelID, ev.MessageID)
  | .MessageReactionRemoveAll ev => some (ev.ChannelID, ev.MessageID)
  | .MessageReactionRemoveEmoji ev => some (ev.ChannelID, ev.MessageID)
  | _ => none

/-- A store that has no message cached and fails no setter call. -/
def emptyStore : Store Nat :=
  scriptedStore (.ok alice) (.error (GoError.plain "not found")) (fun _ => false)

/-- A store that refuses every setter call and has no message cached. -/
def refuseAll : Store Nat :=
  scriptedStore (.ok alice) (.error (GoError.plain "not found")) (fun _ => true)

/-- A member update for `bob` in community 7. -/
def bobUpdate : GuildMemberUpdateEvent :=
  { GuildID := 7, RoleIDs := [3, 4], User := bob, Nick := "bobby" }

/-- The calls of the ingestion of one community of a resync: none for a community
marked unavailable, `guildCreateCalls` otherwise. -/
def ingestionCalls (g : GuildCreateEvent) : List StoreCall :=
  if g.Unavailable then [] else guildCreateCalls g

/-- The store calls the specification lists for a resync after the reset: every presence
at community scope 0, the ingestion of every community, every private channel, the local
user. -/
def resyncCalls (ev : ReadyEvent) : List StoreCall :=
  ev.Presences.map (fun p => StoreCall.PresenceSet 0 p)
    ++ ev.Guilds.flatMap ingestionCalls
    ++ ev.PrivateChannels.map (fun ch => StoreCall.ChannelSet ch)
    ++ [StoreCall.MyselfSet ev.User]

/-- The store calls of a resync: the reset first when the store has the capability, then
`resyncCalls`. -/
def readyCalls (hasReset : Bool) (ev : ReadyEvent) : List StoreCall :=
  (if hasReset then [StoreCall.Reset] else []) ++ resyncCalls ev

/-- The diagnostics and the store of a state, as a pair. -/
def State.view {σ : Type} (s : State σ) : List GoError × Conn σ :=
  (s.logged, s.Store)

/-- Whether a call is the reset. -/
def StoreCall.isReset : StoreCall → Bool
  | .Reset => true
  | _ => false

/-- The scripted store without the reset capability. -/
def withoutReset (S : Store Nat) : Store Nat :=
  { S with Reset := none }

/-- A resync with one presence, the sample community and its unavailable twin, one
private channel and `alice` as the local user. -/
def sampleReady : ReadyEvent :=
  { User := alice,
    PrivateChannels := [{ ID := 90, GuildID := 0, Name := "dm", Topic := "" }],
    Guilds := [sampleGuildUnavailable, sampleGuild],
    Settings := some { Locale := "en", Theme := "dark" },
    UserGuildSettings := [{ GuildID := 7, Muted := false, MessageNotifications := 1 }],
    Presences := [{ User := bob, GuildID := 0, Status := "idle" }],
    Notes := some [] }

/-- The reaction-list invariant of the specification: at most one record per emoji
identity, and every count at least 1. -/
def ReactionsOK (rs : List Reaction) : Prop :=
  rs.Pairwise (fun a b => ¬ sameEmoji a.Emoji b) ∧ ∀ r ∈ rs, 1 ≤ r.Count

/-- A note update for user 12. -/
def sampleNote : UserNoteUpdateEvent :=
  { ID := 12, Note := "met at the meetup" }

/-- Between `c` and `c'` the store was only asked for the local user. -/
def OnlyMe {σ : Type} (c c' : Conn σ) : Prop :=
  ∃ extra, c'.calls = c.calls ++ extra ∧ ∀ r ∈ extra, r.call = StoreCall.Me

/-! ## The hook of `hookSession` -/

/-- One observable step of the hook, in the order the steps happened.  Modelled from the
spec: the handlers (`PreHandler.Call`, `Handler.Call`) and the follow-up methods
`handleReady`, `handleGuildCreate` and `handleGuildDelete` are not part of the sources at
hand; each call is recorded with the event it was given and changes none of the fields
modelled here. -/
inductive HookEffect where
  | PreHandler (event : Event)
  | onEvent (event : Event)
  | Handler (event : Event)
  | handleReady (ev : ReadyEvent)
  | handleGuildCreate (ev : GuildCreateEvent)
  | handleGuildDelete (ev : GuildDeleteEvent)
deriving DecidableEq, Repr

/-- The state the hook works on: the engine state, whether `PreHandler` is non-nil, and
the ghost log of the steps taken so far, oldest first. -/
structure Hooked (σ : Type) where
  State : State σ
  PreHandler : Bool
  effects : List HookEffect

/-- The assignment `event.Member.User = event.Author` under `if event.Member != nil`. -/
def backfillAuthor (event : MessageEvent) : MessageEvent :=
  match event.Member with
  | some member => { event with Member := some { member with User := event.Message.Author } }
  | none => event

/-- The handler that `hookSession` installs, run on one event.  A fault of `onEvent` ends
the handler there. -/
def hookSession {σ : Type} (S : Store σ) (s : Hooked σ) (event : Event) :
    Except Panic (Hooked σ) :=
  -- Call the pre-handler before the state handler.
  let effects :=
    if s.PreHandler then s.effects ++ [HookEffect.PreHandler event] else s.effects
  -- Run the state handler.
  match onEvent S s.State event with
  | .error p => .error p
  | .ok state =>
    let effects := effects ++ [HookEffect.onEvent event]
    match event with
    | .Ready ev =>
      .ok { s with
        State := state,
        effects := effects ++ [HookEffect.Handler (.Ready ev), HookEffect.handleReady ev] }
    | .GuildCreate ev =>
      .ok { s with
        State := state,
        effects := effects
          ++ [HookEffect.Handler (.GuildCreate ev), HookEffect.handleGuildCreate ev] }
    | .GuildDelete ev =>
      .ok { s with
        State := state,
        effects := effects
          ++ [HookEffect.Handler (.GuildDelete ev), HookEffect.handleGuildDelete ev] }
    | .MessageCreate ev =>
      .ok { s with
        State := state,
        effects := effects ++ [HookEffect.Handler (.MessageCreate (backfillAuthor ev))] }
    | .MessageUpdate ev =>
      .ok { s with
        State := state,
        effects := effects ++ [HookEffect.Handler (.MessageUpdate (backfillAuthor ev))] }
    | event =>
      .ok { s with State := state, effects := effects ++ [HookEffect.Handler event] }

/-- Whether a step is a call of the post-mutation observer `Handler`. -/
def HookEffect.isHandler : HookEffect → Bool
  | .Handler _ => true
  | _ => false

/-- A hook state in which nothing has happened yet; the pre-handler is set. -/
def freshHook : Hooked Nat :=
  { State := freshState, PreHandler := true, effects := [] }

/-- A message-create event whose embedded member has no user filled in. -/
def sampleCreate : MessageEvent :=
  { Message := cachedMessage [],
    Member := some { zeroMember with Nick := "bobby" } }

/-! ## `api/pull_vector.go` -/

/-- The record `PullVector`.  `Decide` is a pointer: `none` when nil, otherwise the id it
points to. -/
structure PullVector where
  Decide : Option Snowflake
  Before : Snowflake
  After : Snowflake
  Around : Snowflake
  Limit : Nat
deriving DecidableEq, Repr

/-- The body of `CreateVector`, run on the receiver it was given. -/
def PullVector.CreateVector.body (pv : PullVector) : PullVector :=
  if pv.Around > 0 then { pv with Decide := some pv.Around }
  else if pv.Before > 0 then { pv with Decide := some pv.Before }
  else { pv with Decide := some pv.After }

/-- The method `CreateVector`.  Its receiver is a value: the body runs on a copy, nothing
is returned, and the caller's record is what it was. -/
def PullVector.CreateVector (pv : PullVector) : PullVector :=
  let _copy := PullVector.CreateVector.body pv
  pv

/-- The method `ReturnVector`: dereferencing a nil `Decide` is a fault. -/
def PullVector.ReturnVector (pv : PullVector) : Except Panic (Snowflake × Nat) :=
  match pv.Decide with
  | none => .error Panic.nilDereference
  | some target => .ok (target, pv.Limit)

/-- A vector around message 5 with limit 10, `Decide` not set. -/
def samplePull : PullVector :=
  { Decide := none, Before := 0, After := 0, Around := 5, Limit := 10 }

/-- A store whose self-user lookup returns neither a user nor an error, that has
`cachedMessage rs` cached and fails no setter call. -/
def nilUserStore (rs : List Reaction) : Store Nat :=
  scriptedStore Lookup.neither (.ok (cachedMessage rs)) (fun _ => false)

/-- The getters of the store never return a nil record together with a nil error. -/
def Store.NeverNeither {σ : Type} (S : Store σ) : Prop :=
  (∀ st, (S.Me st).1 ≠ Lookup.neither) ∧
    (∀ st channelID messageID, (S.Message st channelID messageID).1 ≠ Lookup.neither) ∧
    (∀ st guildID userID, (S.Member st guildID userID).1 ≠ Lookup.neither)

theorem Store.replay_append {σ : Type} (S : Store σ) (st : σ) (cs ds : List StoreCall) :
    S.replay st (cs ++ ds) =
      ((S.replay st cs).1 ++ (S.replay (S.replay st cs).2 ds).1,
        (S.replay (S.replay st cs).2 ds).2) := by
  induction cs generalizing st with
  | nil => simp [Store.replay]
  | cons c cs ih => simp [Store.replay, ih]

theorem Store.replay_calls {σ : Type} (S : Store σ) (st : σ) (cs : List StoreCall) :
    (S.replay st cs).1.map (fun r => r.call) = cs := by
  induction cs generalizing st with
  | nil => simp [Store.replay]
  | cons c cs ih => simp [Store.replay, ih]

theorem Grows.refl {σ : Type} (S : Store σ) (a : List GoError × Conn σ) : Grows S a a [] := by
  simp [Grows, Store.replay]

theorem Grows.trans {σ : Type} {S : Store σ} {a b c : List GoError × Conn σ}
    {cs ds : List StoreCall} (h₁ : Grows S a b cs) (h₂ : Grows S b c ds) :
    Grows S a c (cs ++ ds) := by
  obtain ⟨hs₁, hc₁, hl₁⟩ := h₁
  obtain ⟨hs₂, hc₂, hl₂⟩ := h₂
  rw [hs₁] at hs₂ hc₂ hl₂
  refine ⟨?_, ?_, ?_⟩
  · rw [hs₂, Store.replay_append]
  · rw [hc₂, hc₁, Store.replay_append, List.append_assoc]
  · rw [hl₂, hl₁, Store.replay_append, List.countP_append, Nat.add_assoc]

theorem Grows.pushIfErr {σ : Type} (S : Store σ) (stack : List GoError) (c : Conn σ)
    (call : StoreCall) (wrap : String) :
    Grows S (stack, c) (pushIfErr stack (c.invoke call (S.perform c.st call)) wrap) [call] := by
  cases h : (S.perform c.st call).1 <;>
    simp [Grows, Arikawa.pushIfErr, Conn.invoke, h, errs, CallRecord.failed, Store.replay]

theorem Grows.foldl {σ α : Type} (S : Store σ) (f : α → StoreCall)
    (step : List GoError × Conn σ → α → List GoError × Conn σ)
    (hstep : ∀ acc x, Grows S acc (step acc x) [f x]) (xs : List α)
    (acc : List GoError × Conn σ) : Grows S acc (xs.foldl step acc) (xs.map f) := by
  induction xs generalizing acc with
  | nil => exact Grows.refl S acc
  | cons x xs ih =>
    have h := Grows.trans (hstep acc x) (ih (step acc x))
    simpa using h

theorem storeGuildCreate_grows {σ : Type} (S : Store σ) (c : Conn σ) (g : GuildCreateEvent)
    (h : g.Unavailable = false) :
    Grows S ([], c) (storeGuildCreate S c g) (guildCreateCalls g) := by
  unfold storeGuildCreate guildCreateCalls
  simp only [h, Bool.false_eq_true, if_false, newErrorStack]
  refine Grows.trans ?_
    (Grows.foldl S (fun v => StoreCall.VoiceStateSet g.Guild.ID v) _
      (fun acc v => Grows.pushIfErr S acc.1 acc.2 _ _) _ _)
  refine Grows.trans ?_
    (Grows.foldl S (fun p => StoreCall.PresenceSet g.Guild.ID p) _
      (fun acc p => Grows.pushIfErr S acc.1 acc.2 _ _) _ _)
  refine Grows.trans ?_
    (Grows.foldl S (fun ch : Channel => StoreCall.ChannelSet { ch with GuildID := g.Guild.ID }) _
      (fun acc ch => Grows.pushIfErr S acc.1 acc.2 _ _) _ _)
  refine Grows.trans ?_
    (Grows.foldl S (fun m => StoreCall.MemberSet g.Guild.ID m) _
      (fun acc m => Grows.pushIfErr S acc.1 acc.2 _ _) _ _)
  cases g.Guild.Emojis with
  | none =>
    simpa using Grows.pushIfErr S [] c (StoreCall.GuildSet g.Guild)
      "failed to set guild in Ready"
  | some emojis =>
    exact Grows.trans (Grows.pushIfErr S [] c (StoreCall.GuildSet g.Guild) _)
      (Grows.pushIfErr S _ _ (StoreCall.EmojiSet g.Guild.ID emojis) _)

theorem batchLog_logged {σ : Type} (errors : List GoError) (s : State σ) :
    batchLog s errors = { s with logged := s.logged ++ errors } := by
  unfold batchLog
  induction errors generalizing s with
  | nil => simp
  | cons e es ih => simp [ih]

theorem State.check_eq {σ : Type} (s : State σ) (r : Option GoError × Conn σ)
    (wrap : String) :
    s.check r wrap = { Store := r.2, Ready := s.Ready, logged := s.logged ++ diag r.1 wrap } := by
  cases h : r.1 <;> simp [State.check, stateErr, diag, h]

/-! ## Community ingestion -/

/-- C1: for every store and every community-create payload marked unavailable,
`storeGuildCreate` makes no store call and returns no error, and `onEvent` on that
payload leaves the whole state (store, call log, snapshot, diagnostics) as it was. -/
theorem guild_create_unavailable_skipped {σ : Type} (S : Store σ) (s : State σ)
    (ev : GuildCreateEvent) (h : ev.Unavailable = true) :
    storeGuildCreate S s.Store ev = ([], s.Store) ∧
      onEvent S s (Event.GuildCreate ev) = .ok s := by
  have h₁ : storeGuildCreate S s.Store ev = ([], s.Store) := by
    simp [storeGuildCreate, h]
  refine ⟨h₁, ?_⟩
  simp [onEvent, h₁, batchLog]

theorem guild_create_unavailable_skipped_witness :
    sampleGuildUnavailable.Unavailable = true ∧
      (storeGuildCreate refuseAlice freshState.Store sampleGuildUnavailable
          = ([], freshState.Store) ∧
        onEvent refuseAlice freshState (Event.GuildCreate sampleGuildUnavailable)
          = .ok freshState) :=
  ⟨rfl, guild_create_unavailable_skipped refuseAlice freshState sampleGuildUnavailable rfl⟩

/-- C2: for every store and every community-create payload not marked unavailable,
`storeGuildCreate` makes exactly the calls `guildCreateCalls` lists (GuildSet, EmojiSet
when the emoji list is present, MemberSet per member, ChannelSet per channel,
PresenceSet per presence, VoiceStateSet per voice state), in that order and each one
whatever the earlier ones returned; the returned slice has one error per failed call;
every member has its MemberSet call, with the error the store gave for it; and
`onEvent` logs exactly the returned errors. -/
theorem guild_create_no_short_circuit {σ : Type} (S : Store σ) (s : State σ)
    (ev : GuildCreateEvent) (h : ev.Unavailable = false) :
    (storeGuildCreate S s.Store ev).2.st = (S.replay s.Store.st (guildCreateCalls ev)).2 ∧
      (storeGuildCreate S s.Store ev).2.calls
        = s.Store.calls ++ (S.replay s.Store.st (guildCreateCalls ev)).1 ∧
      ((S.replay s.Store.st (guildCreateCalls ev)).1.map (fun r => r.call)
        = guildCreateCalls ev) ∧
      (storeGuildCreate S s.Store ev).1.length
        = (S.replay s.Store.st (guildCreateCalls ev)).1.countP (fun r => r.failed) ∧
      (∀ m ∈ ev.Members, ∃ r ∈ callsSince s.Store (storeGuildCreate S s.Store ev).2,
        r.call = StoreCall.MemberSet ev.Guild.ID m) ∧
      onEvent S s (Event.GuildCreate ev)
        = .ok { Store := (storeGuildCreate S s.Store ev).2, Ready := s.Ready,
                logged := s.logged ++ (storeGuildCreate S s.Store ev).1 } := by
  obtain ⟨hst, hcalls, hlen⟩ := storeGuildCreate_grows S s.Store ev h
  have hmap := Store.replay_calls S s.Store.st (guildCreateCalls ev)
  refine ⟨hst, hcalls, hmap, by simpa using hlen, ?_, ?_⟩
  · intro m hm
    have hmem : StoreCall.MemberSet ev.Guild.ID m ∈
        (S.replay s.Store.st (guildCreateCalls ev)).1.map (fun r => r.call) := by
      rw [hmap]
      simp only [guildCreateCalls, List.mem_append, List.mem_map]
      exact Or.inl (Or.inl (Or.inl (Or.inr ⟨m, hm, rfl⟩)))
    obtain ⟨r, hr, hrc⟩ := List.mem_map.mp hmem
    refine ⟨r, ?_, hrc⟩
    simpa [callsSince, hcalls] using hr
  · simp [onEvent, batchLog_logged]

theorem guild_create_no_short_circuit_witness :
    sampleGuild.Unavailable = false ∧
      ((storeGuildCreate refuseAlice freshState.Store sampleGuild).2.st
          = (refuseAlice.replay freshState.Store.st (guildCreateCalls sampleGuild)).2 ∧
        (storeGuildCreate refuseAlice freshState.Store sampleGuild).2.calls
          = freshState.Store.calls
            ++ (refuseAlice.replay freshState.Store.st (guildCreateCalls sampleGuild)).1 ∧
        ((refuseAlice.replay freshState.Store.st (guildCreateCalls sampleGuild)).1.map
            (fun r => r.call) = guildCreateCalls sampleGuild) ∧
        (storeGuildCreate refuseAlice freshState.Store sampleGuild).1.length
          = (refuseAlice.replay freshState.Store.st (guildCreateCalls sampleGuild)).1.countP
              (fun r => r.failed) ∧
        (∀ m ∈ sampleGuild.Members,
          ∃ r ∈ callsSince freshState.Store
              (storeGuildCreate refuseAlice freshState.Store sampleGuild).2,
            r.call = StoreCall.MemberSet sampleGuild.Guild.ID m) ∧
        onEvent refuseAlice freshState (Event.GuildCreate sampleGuild)
          = .ok { Store := (storeGuildCreate refuseAlice freshState.Store sampleGuild).2,
                  Ready := freshState.Ready,
                  logged := freshState.logged
                    ++ (storeGuildCreate refuseAlice freshState.Store sampleGuild).1 }) :=
  ⟨rfl, guild_create_no_short_circuit refuseAlice freshState sampleGuild rfl⟩

theorem channelSets_guildCreateCalls (ev : GuildCreateEvent) :
    channelSets (guildCreateCalls ev)
      = ev.Channels.map (fun ch => { ch with GuildID := ev.Guild.ID }) := by
  have hnone : ∀ {α : Type} (f : α → StoreCall) (xs : List α),
      (∀ x, channelSets [f x] = []) → channelSets (xs.map f) = [] := by
    intro α f xs hf
    induction xs with
    | nil => rfl
    | cons x xs ih =>
      have hx := hf x
      simp only [channelSets, List.filterMap_cons, List.filterMap_nil, List.map_cons] at hx ih ⊢
      split at hx
      · exact ih
      · simp at hx
  have happ : ∀ cs ds : List StoreCall,
      channelSets (cs ++ ds) = channelSets cs ++ channelSets ds := by
    intro cs ds
    simp [channelSets, List.filterMap_append]
  have hch : ∀ xs : List Channel,
      channelSets (xs.map (fun ch => StoreCall.ChannelSet { ch with GuildID := ev.Guild.ID }))
        = xs.map (fun ch => { ch with GuildID := ev.Guild.ID }) := by
    intro xs
    induction xs with
    | nil => rfl
    | cons x xs ih =>
      simp only [channelSets, List.map_cons, List.filterMap_cons] at ih ⊢
      rw [ih]
  have hm := hnone (fun m => StoreCall.MemberSet ev.Guild.ID m) ev.Members (fun _ => rfl)
  have hp := hnone (fun p => StoreCall.PresenceSet ev.Guild.ID p) ev.Presences (fun _ => rfl)
  have hv := hnone (fun v => StoreCall.VoiceStateSet ev.Guild.ID v) ev.VoiceStates
    (fun _ => rfl)
  unfold guildCreateCalls
  rw [happ, happ, happ, happ, happ, hch, hm, hp, hv]
  cases ev.Guild.Emojis <;> simp [channelSets]

/-- C3: for every community-create payload not marked unavailable, the channels that
`storeGuildCreate` hands to `ChannelSet` are, in order and one call per channel, the
channels of the payload with `GuildID` set to the payload's community id and every
other field as in the payload. -/
theorem guild_create_channels_carry_guild_id {σ : Type} (S : Store σ) (s : State σ)
    (ev : GuildCreateEvent) (h : ev.Unavailable = false) :
    (storeGuildCreate S s.Store ev).2.calls
      = s.Store.calls ++ callsSince s.Store (storeGuildCreate S s.Store ev).2 ∧
    channelSets ((callsSince s.Store (storeGuildCreate S s.Store ev).2).map (fun r => r.call))
      = ev.Channels.map (fun ch => { ch with GuildID := ev.Guild.ID }) ∧
    (channelSets
      ((callsSince s.Store (storeGuildCreate S s.Store ev).2).map (fun r => r.call))).length
      = ev.Channels.length ∧
    ∀ ch ∈ channelSets
        ((callsSince s.Store (storeGuildCreate S s.Store ev).2).map (fun r => r.call)),
      ch.GuildID = ev.Guild.ID := by
  obtain ⟨_, hcalls, _⟩ := storeGuildCreate_grows S s.Store ev h
  have hsince : callsSince s.Store (storeGuildCreate S s.Store ev).2
      = (S.replay s.Store.st (guildCreateCalls ev)).1 := by
    simp [callsSince, hcalls]
  have hchan : channelSets
      ((callsSince s.Store (storeGuildCreate S s.Store ev).2).map (fun r => r.call))
      = ev.Channels.map (fun ch => { ch with GuildID := ev.Guild.ID }) := by
    rw [hsince, Store.replay_calls, channelSets_guildCreateCalls]
  refine ⟨by rw [hsince]; exact hcalls, hchan, ?_, ?_⟩
  · rw [hchan, List.length_map]
  · intro ch hch
    rw [hchan] at hch
    obtain ⟨c0, _, rfl⟩ := List.mem_map.mp hch
    rfl

theorem guild_create_channels_carry_guild_id_witness :
    sampleGuild.Unavailable = false ∧
      ((storeGuildCreate refuseAlice freshState.Store sampleGuild).2.calls
          = freshState.Store.calls ++ callsSince freshState.Store
              (storeGuildCreate refuseAlice freshState.Store sampleGuild).2 ∧
        channelSets
          ((callsSince freshState.Store
            (storeGuildCreate refuseAlice freshState.Store sampleGuild).2).map
              (fun r => r.call))
          = sampleGuild.Channels.map (fun ch => { ch with GuildID := sampleGuild.Guild.ID }) ∧
        (channelSets
          ((callsSince freshState.Store
            (storeGuildCreate refuseAlice freshState.Store sampleGuild).2).map
              (fun r => r.call))).length = sampleGuild.Channels.length ∧
        ∀ ch ∈ channelSets
            ((callsSince freshState.Store
              (storeGuildCreate refuseAlice freshState.Store sampleGuild).2).map
                (fun r => r.call)),
          ch.GuildID = sampleGuild.Guild.ID) :=
  ⟨rfl, guild_create_channels_carry_guild_id refuseAlice freshState sampleGuild rfl⟩

/-! ## Community removal -/

/-- C4: for every GuildDeleteEvent, `onEvent` calls `GuildRemove` exactly once, with the
event's community id, whether or not the event is marked unavailable; it logs exactly
one diagnostic when the removal fails and the event is not marked unavailable, and none
otherwise. -/
theorem guild_delete_removes_once {σ : Type} (S : Store σ) (s : State σ)
    (ev : GuildDeleteEvent) :
    ∃ s', onEvent S s (Event.GuildDelete ev) = .ok s' ∧
      s'.Store.st = (S.GuildRemove s.Store.st ev.ID).2 ∧
      s'.Store.calls = s.Store.calls
        ++ [{ call := StoreCall.GuildRemove ev.ID, err := (S.GuildRemove s.Store.st ev.ID).1 }] ∧
      s'.Ready = s.Ready ∧
      s'.logged = s.logged
        ++ (if ev.Unavailable then [] else
              diag (S.GuildRemove s.Store.st ev.ID).1 "failed to delete guild in state") ∧
      (s'.logged.length = s.logged.length
        + (if (S.GuildRemove s.Store.st ev.ID).1.isSome ∧ ev.Unavailable = false then 1
           else 0)) := by
  cases hr : (S.GuildRemove s.Store.st ev.ID).1 <;> cases hu : ev.Unavailable <;>
    simp [onEvent, Conn.GuildRemove, Conn.invoke, hr, hu, stateErr, diag]

/-! ## Reactions -/

theorem findReactionFrom_absent (rs : List Reaction) (emoji : Emoji) (i : Nat)
    (h : ∀ r ∈ rs, ¬ sameEmoji emoji r) : findReactionFrom rs emoji i = -1 := by
  induction rs generalizing i with
  | nil => rfl
  | cons r rest ih =>
    have hr : ¬ (r.Emoji.ID = emoji.ID ∧ r.Emoji.Name = emoji.Name) :=
      h r (List.mem_cons_self r rest)
    rw [findReactionFrom, if_neg hr]
    exact ih (i + 1) (fun x hx => h x (List.mem_cons_of_mem r hx))

theorem findReactionFrom_first (pre post : List Reaction) (r : Reaction) (emoji : Emoji)
    (i : Nat) (hpre : ∀ x ∈ pre, ¬ sameEmoji emoji x) (hr : sameEmoji emoji r) :
    findReactionFrom (pre ++ r :: post) emoji i = ((i + pre.length : Nat) : Int) := by
  induction pre generalizing i with
  | nil =>
    have hr' : r.Emoji.ID = emoji.ID ∧ r.Emoji.Name = emoji.Name := hr
    simp [findReactionFrom, hr']
  | cons x pre ih =>
    have hx : ¬ (x.Emoji.ID = emoji.ID ∧ x.Emoji.Name = emoji.Name) :=
      hpre x (List.mem_cons_self x pre)
    rw [List.cons_append, findReactionFrom, if_neg hx,
      ih (i + 1) (fun y hy => hpre y (List.mem_cons_of_mem x hy))]
    simp only [List.length_cons]
    congr 1
    omega

theorem findReaction_absent (rs : List Reaction) (emoji : Emoji)
    (h : ∀ r ∈ rs, ¬ sameEmoji emoji r) : findReaction rs emoji = -1 :=
  findReactionFrom_absent rs emoji 0 h

theorem findReaction_first (pre post : List Reaction) (r : Reaction) (emoji : Emoji)
    (hpre : ∀ x ∈ pre, ¬ sameEmoji emoji x) (hr : sameEmoji emoji r) :
    findReaction (pre ++ r :: post) emoji = (pre.length : Int) := by
  have h := findReactionFrom_first pre post r emoji 0 hpre hr
  simpa [findReaction] using h

theorem getElem?_first (pre post : List Reaction) (r : Reaction) :
    (pre ++ r :: post)[pre.length]? = some r := by
  rw [List.getElem?_append_right (Nat.le_refl _)]
  simp

theorem set_first (pre post : List Reaction) (r r' : Reaction) :
    (pre ++ r :: post).set pre.length r' = pre ++ r' :: post := by
  simp

theorem cut_first (pre post : List Reaction) (r : Reaction) :
    cut (pre ++ r :: post) pre.length = .ok (pre ++ post) := by
  have hlen : pre.length + 1 ≤ (pre ++ r :: post).length := by simp
  simp only [cut, if_pos hlen]
  congr 1
  rw [List.take_left, ← List.length_cons r pre]
  have : pre ++ r :: post = (pre ++ [r]) ++ post := by simp
  rw [this]
  have hl : (r :: pre).length = (pre ++ [r]).length := by simp
  rw [hl, List.drop_left]

theorem editMessage_changed {σ : Type} (S : Store σ) (s : State σ) (ch msg : Snowflake)
    (fn : Conn σ → Message → Except Panic (Edit σ)) (m : Message) (st₁ : σ) (e : Edit σ)
    (hmsg : S.Message s.Store.st ch msg = (.ok m, st₁))
    (hfn : fn { st := st₁,
                calls := s.Store.calls ++ [{ call := StoreCall.Message ch msg, err := none }] } m
      = .ok e)
    (hch : e.changed = true) :
    editMessage S s ch msg fn
      = .ok { Store := { st := (S.MessageSet e.store.st e.m).2,
                         calls := e.store.calls
                           ++ [{ call := StoreCall.MessageSet e.m,
                                 err := (S.MessageSet e.store.st e.m).1 }] },
              Ready := s.Ready,
              logged := s.logged
                ++ diag (S.MessageSet e.store.st e.m).1
                    "failed to save message in reaction add" } := by
  simp [editMessage, Conn.Message, Conn.lookup, hmsg, lookupErr, hfn, hch, State.check_eq,
    Conn.MessageSet, Conn.invoke]

theorem editMessage_unchanged {σ : Type} (S : Store σ) (s : State σ) (ch msg : Snowflake)
    (fn : Conn σ → Message → Except Panic (Edit σ)) (m : Message) (st₁ : σ) (e : Edit σ)
    (hmsg : S.Message s.Store.st ch msg = (.ok m, st₁))
    (hfn : fn { st := st₁,
                calls := s.Store.calls ++ [{ call := StoreCall.Message ch msg, err := none }] } m
      = .ok e)
    (hch : e.changed = false) :
    editMessage S s ch msg fn = .ok { Store := e.store, Ready := s.Ready, logged := s.logged } := by
  simp [editMessage, Conn.Message, Conn.lookup, hmsg, lookupErr, hfn, hch]

theorem wrapInt_of_range (x : Int) (lo : minInt ≤ x) (hi : x ≤ maxInt) : wrapInt x = x := by
  unfold wrapInt
  unfold minInt at lo
  unfold maxInt at hi
  omega

theorem reactionAdd_first {σ : Type} (S : Store σ) (ev : MessageReactionEvent) (c : Conn σ)
    (m : Message) (pre post : List Reaction) (r : Reaction)
    (hsplit : m.Reactions = pre ++ r :: post) (hpre : ∀ x ∈ pre, ¬ sameEmoji ev.Emoji x)
    (hr : sameEmoji ev.Emoji r) :
    reactionAdd S ev c m
      = .ok { m := { m with
                     Reactions := pre ++ { r with Count := wrapInt (r.Count + 1) } :: post },
              changed := true, store := c } := by
  have hfind := findReaction_first pre post r ev.Emoji hpre hr
  have hpos : (pre.length : Int) > -1 := by omega
  simp only [reactionAdd, hsplit, hfind, hpos, if_true, Int.toNat_ofNat, getElem?_first,
    set_first]

theorem reactionAdd_absent {σ : Type} (S : Store σ) (ev : MessageReactionEvent) (c : Conn σ)
    (m : Message) (hnew : ∀ r ∈ m.Reactions, ¬ sameEmoji ev.Emoji r) :
    reactionAdd S ev c m
      = .ok { m := { m with
                Reactions := m.Reactions
                  ++ [{ Count := 1, Me := selfFlag (S.Me c.st).1 ev.UserID, Emoji := ev.Emoji }] },
              changed := true,
              store := { st := (S.Me c.st).2,
                         calls := c.calls
                           ++ [{ call := StoreCall.Me, err := lookupErr (S.Me c.st).1 }] } } := by
  have hfind := findReaction_absent m.Reactions ev.Emoji hnew
  simp only [reactionAdd, hfind, gt_iff_lt, lt_self_iff_false, if_false, Conn.Me, Conn.lookup,
    selfFlag]

theorem reactionRemove_absent {σ : Type} (S : Store σ) (ev : MessageReactionEvent)
    (c : Conn σ) (m : Message) (hnew : ∀ r ∈ m.Reactions, ¬ sameEmoji ev.Emoji r) :
    reactionRemove S ev c m = .ok { m := m, changed := false, store := c } := by
  have hfind := findReaction_absent m.Reactions ev.Emoji hnew
  simp [reactionRemove, hfind]

theorem reactionRemove_last {σ : Type} (S : Store σ) (ev : MessageReactionEvent) (c : Conn σ)
    (m : Message) (pre post : List Reaction) (r : Reaction)
    (hsplit : m.Reactions = pre ++ r :: post) (hpre : ∀ x ∈ pre, ¬ sameEmoji ev.Emoji x)
    (hr : sameEmoji ev.Emoji r) (hlow : wrapInt (r.Count - 1) < 1) :
    reactionRemove S ev c m
      = .ok { m := { m with Reactions := pre ++ post }, changed := true, store := c } := by
  have hfind := findReaction_first pre post r ev.Emoji hpre hr
  have hpos : ¬ ((pre.length : Int) < 0) := by omega
  simp only [reactionRemove, hsplit, hfind, hpos, if_false, Int.toNat_ofNat, getElem?_first,
    set_first, hlow, if_true, cut_first]

theorem reactionRemove_kept {σ : Type} (S : Store σ) (ev : MessageReactionEvent) (c : Conn σ)
    (m : Message) (pre post : List Reaction) (r : Reaction)
    (hsplit : m.Reactions = pre ++ r :: post) (hpre : ∀ x ∈ pre, ¬ sameEmoji ev.Emoji x)
    (hr : sameEmoji ev.Emoji r) (hhigh : ¬ wrapInt (r.Count - 1) < 1)
    (hme : r.Me = true → (S.Me c.st).1 ≠ Lookup.neither) :
    reactionRemove S ev c m
      = .ok { m := { m with
                Reactions := pre
                  ++ { r with Count := wrapInt (r.Count - 1),
                              Me := r.Me && !selfFlag (S.Me c.st).1 ev.UserID } :: post },
              changed := true,
              store := if r.Me then
                  { st := (S.Me c.st).2,
                    calls := c.calls
                      ++ [{ call := StoreCall.Me, err := lookupErr (S.Me c.st).1 }] }
                else c } := by
  have hfind := findReaction_first pre post r ev.Emoji hpre hr
  have hpos : ¬ ((pre.length : Int) < 0) := by omega
  simp only [reactionRemove, hsplit, hfind, hpos, if_false, Int.toNat_ofNat, getElem?_first,
    set_first, hhigh]
  cases hflag : r.Me with
  | false => simp
  | true =>
    cases hq : (S.Me c.st).1 with
    | neither => exact absurd hq (hme hflag)
    | error e => simp [Conn.Me, Conn.lookup, hq, selfFlag]
    | ok u =>
      by_cases hu : ev.UserID = u.ID <;> simp [Conn.Me, Conn.lookup, hq, selfFlag, hu]

theorem reactionRemove_nil_user {σ : Type} (S : Store σ) (ev : MessageReactionEvent)
    (c : Conn σ) (m : Message) (pre post : List Reaction) (r : Reaction)
    (hsplit : m.Reactions = pre ++ r :: post) (hpre : ∀ x ∈ pre, ¬ sameEmoji ev.Emoji x)
    (hr : sameEmoji ev.Emoji r) (hhigh : ¬ wrapInt (r.Count - 1) < 1) (hflag : r.Me = true)
    (hme : (S.Me c.st).1 = Lookup.neither) :
    reactionRemove S ev c m = .error Panic.nilDereference := by
  have hfind := findReaction_first pre post r ev.Emoji hpre hr
  have hpos : ¬ ((pre.length : Int) < 0) := by omega
  simp only [reactionRemove, hsplit, hfind, hpos, if_false, Int.toNat_ofNat, getElem?_first,
    set_first, hhigh, hflag, if_true, Conn.Me, Conn.lookup, hme]

theorem reactionRemoveEmoji_absent {σ : Type} (ev : MessageReactionRemoveEmoji) (c : Conn σ)
    (m : Message) (hnew : ∀ r ∈ m.Reactions, ¬ sameEmoji ev.Emoji r) :
    reactionRemoveEmoji ev c m = .ok { m := m, changed := false, store := c } := by
  have hfind := findReaction_absent m.Reactions ev.Emoji hnew
  simp [reactionRemoveEmoji, hfind]

theorem reactionRemoveEmoji_first {σ : Type} (ev : MessageReactionRemoveEmoji) (c : Conn σ)
    (m : Message) (pre post : List Reaction) (r : Reaction)
    (hsplit : m.Reactions = pre ++ r :: post) (hpre : ∀ x ∈ pre, ¬ sameEmoji ev.Emoji x)
    (hr : sameEmoji ev.Emoji r) :
    reactionRemoveEmoji ev c m
      = .ok { m := { m with Reactions := pre ++ post }, changed := true, store := c } := by
  have hfind := findReaction_first pre post r ev.Emoji hpre hr
  have hpos : ¬ ((pre.length : Int) < 0) := by omega
  simp only [reactionRemoveEmoji, hsplit, hfind, hpos, if_false, Int.toNat_ofNat, cut_first]

/-- C6, amended: for every cached message whose first record for the event's emoji is
`r`, with `r`'s count an `int` below the largest one, a MessageReactionAddEvent by any
user persists the message with `r`'s count increased by one and nothing else changed:
same flag, same other records, same length, same number of records for the emoji; the
local user is not looked up. -/
theorem reaction_add_increments_count {σ : Type} (S : Store σ) (s : State σ)
    (ev : MessageReactionEvent) (m : Message) (st₁ st₂ : σ) (pre post : List Reaction)
    (r : Reaction) (err : Option GoError)
    (hmsg : S.Message s.Store.st ev.ChannelID ev.MessageID = (.ok m, st₁))
    (hsplit : m.Reactions = pre ++ r :: post)
    (hpre : ∀ x ∈ pre, ¬ sameEmoji ev.Emoji x) (hr : sameEmoji ev.Emoji r)
    (hlo : minInt ≤ r.Count) (hhi : r.Count < maxInt)
    (hset : S.MessageSet st₁
        { m with Reactions := pre ++ { r with Count := r.Count + 1 } :: post }
      = (err, st₂)) :
    onEvent S s (Event.MessageReactionAdd ev)
        = .ok { Store :=
                  { st := st₂,
                    calls := s.Store.calls
                      ++ [{ call := StoreCall.Message ev.ChannelID ev.MessageID, err := none },
                          { call := StoreCall.MessageSet
                              { m with
                                Reactions := pre ++ { r with Count := r.Count + 1 } :: post },
                            err := err }] },
                Ready := s.Ready,
                logged := s.logged ++ diag err "failed to save message in reaction add" } ∧
      (pre ++ { r with Count := r.Count + 1 } :: post).length = m.Reactions.length ∧
      (pre ++ { r with Count := r.Count + 1 } :: post).countP
          (fun x => decide (sameEmoji ev.Emoji x))
        = m.Reactions.countP (fun x => decide (sameEmoji ev.Emoji x)) := by
  refine ⟨?_, ?_, ?_⟩
  · have hw : wrapInt (r.Count + 1) = r.Count + 1 := by
      apply wrapInt_of_range
      · unfold minInt at hlo ⊢
        omega
      · unfold maxInt at hhi ⊢
        omega
    have hfn := reactionAdd_first S ev
      { st := st₁,
        calls := s.Store.calls
          ++ [{ call := StoreCall.Message ev.ChannelID ev.MessageID, err := none }] }
      m pre post r hsplit hpre hr
    rw [hw] at hfn
    have h := editMessage_changed S s ev.ChannelID ev.MessageID (reactionAdd S ev) m st₁ _
      hmsg hfn rfl
    simp only [hset] at h
    simpa [onEvent] using h
  · simp [hsplit]
  · have hr' : sameEmoji ev.Emoji { r with Count := r.Count + 1 } := hr
    simp [hsplit, List.countP_cons, hr, hr']

theorem reaction_add_increments_count_witness :
    ((aliceStore [partyRecord, { Count := 1, Me := true, Emoji := thumbsUp }]).Message
        freshState.Store.st (thumbsUpBy 12).ChannelID (thumbsUpBy 12).MessageID
      = (.ok (cachedMessage [partyRecord, { Count := 1, Me := true, Emoji := thumbsUp }]), 1)) ∧
      (∀ x ∈ [partyRecord], ¬ sameEmoji (thumbsUpBy 12).Emoji x) ∧
      sameEmoji (thumbsUpBy 12).Emoji { Count := 1, Me := true, Emoji := thumbsUp } ∧
      onEvent (aliceStore [partyRecord, { Count := 1, Me := true, Emoji := thumbsUp }])
          freshState (Event.MessageReactionAdd (thumbsUpBy 12))
        = .ok { Store :=
                  { st := 2,
                    calls :=
                      [{ call := StoreCall.Message 70 500, err := none },
                       { call := StoreCall.MessageSet
                           (cachedMessage
                             [partyRecord, { Count := 2, Me := true, Emoji := thumbsUp }]),
                         err := none }] },
                Ready := freshState.Ready,
                logged := [] } :=
  ⟨rfl, by decide, by decide,
    (reaction_add_increments_count
      (aliceStore [partyRecord, { Count := 1, Me := true, Emoji := thumbsUp }]) freshState
      (thumbsUpBy 12)
      (cachedMessage [partyRecord, { Count := 1, Me := true, Emoji := thumbsUp }]) 1 2
      [partyRecord] [] { Count := 1, Me := true, Emoji := thumbsUp } none rfl rfl (by decide)
      (by decide) (by decide) (by decide) rfl).1⟩

/-- C6 as stated fails at the largest `int`: the record for the emoji has count `maxInt`,
the add event stores it with count `minInt`, which is not the old count plus one. -/
theorem reaction_add_wraps_at_maxInt :
    onEvent (aliceStore [{ Count := maxInt, Me := true, Emoji := thumbsUp }]) freshState
        (Event.MessageReactionAdd (thumbsUpBy 12))
      = .ok { Store :=
                { st := 2,
                  calls :=
                    [{ call := StoreCall.Message 70 500, err := none },
                     { call := StoreCall.MessageSet
                         (cachedMessage [{ Count := minInt, Me := true, Emoji := thumbsUp }]),
                       err := none }] },
              Ready := freshState.Ready,
              logged := [] } ∧
      minInt ≠ maxInt + 1 :=
  ⟨rfl, by decide⟩

/-- C7: the claim fails on the code when the stored flag is set and the self-user lookup
returns neither a user nor an error.  For every cached message whose first record for the
event's emoji is `r`, with count at least 2, a MessageReactionRemoveEvent then stops with
a nil dereference after the lookup; in every other case it persists the message with `r`
kept, its count decreased by one, and its flag equal to (old flag and not (the self-user
lookup yields the removing user)), every other record unchanged.  The local user is
looked up only when the old flag is set. -/
theorem reaction_remove_decrements_or_faults {σ : Type} (S : Store σ) (s : State σ)
    (ev : MessageReactionEvent) (m : Message) (st₁ st₂ st₃ : σ) (pre post : List Reaction)
    (r : Reaction) (me : Lookup User) (err : Option GoError)
    (hmsg : S.Message s.Store.st ev.ChannelID ev.MessageID = (.ok m, st₁))
    (hsplit : m.Reactions = pre ++ r :: post)
    (hpre : ∀ x ∈ pre, ¬ sameEmoji ev.Emoji x) (hr : sameEmoji ev.Emoji r)
    (hcount : 2 ≤ r.Count) (hhi : r.Count ≤ maxInt)
    (hme : S.Me st₁ = (me, st₂))
    (hset : S.MessageSet (if r.Me then st₂ else st₁)
        { m with
          Reactions := pre
            ++ { r with Count := r.Count - 1, Me := r.Me && !selfFlag me ev.UserID } :: post }
      = (err, st₃)) :
    (r.Me = true ∧ me = Lookup.neither →
      onEvent S s (Event.MessageReactionRemove ev) = .error Panic.nilDereference) ∧
    (¬ (r.Me = true ∧ me = Lookup.neither) →
      onEvent S s (Event.MessageReactionRemove ev)
        = .ok { Store :=
                  { st := st₃,
                    calls := s.Store.calls
                      ++ [{ call := StoreCall.Message ev.ChannelID ev.MessageID, err := none }]
                      ++ (if r.Me then [{ call := StoreCall.Me, err := lookupErr me }] else [])
                      ++ [{ call := StoreCall.MessageSet
                              { m with
                                Reactions := pre
                                  ++ { r with Count := r.Count - 1,
                                              Me := r.Me && !selfFlag me ev.UserID } :: post },
                            err := err }] },
                Ready := s.Ready,
                logged := s.logged ++ diag err "failed to save message in reaction add" }) ∧
    ((r.Me && !selfFlag me ev.UserID) = true
      ↔ r.Me = true ∧ ¬ ∃ u, me = .ok u ∧ u.ID = ev.UserID) := by
  have hw : wrapInt (r.Count - 1) = r.Count - 1 := by
    apply wrapInt_of_range
    · unfold minInt
      omega
    · unfold maxInt at hhi ⊢
      omega
  have hhigh : ¬ wrapInt (r.Count - 1) < 1 := by
    rw [hw]
    omega
  have hc1 : (s.Store.Message S ev.ChannelID ev.MessageID)
      = (.ok m, { st := st₁,
                  calls := s.Store.calls
                    ++ [{ call := StoreCall.Message ev.ChannelID ev.MessageID,
                          err := none }] }) := by
    simp [Conn.Message, Conn.lookup, hmsg, lookupErr]
  refine ⟨?_, ?_, ?_⟩
  · rintro ⟨hflag, hnil⟩
    have hfn := reactionRemove_nil_user S ev
      { st := st₁,
        calls := s.Store.calls
          ++ [{ call := StoreCall.Message ev.ChannelID ev.MessageID, err := none }] }
      m pre post r hsplit hpre hr hhigh hflag (by simp [hme, hnil])
    simp only [onEvent, editMessage, hc1, hfn]
  · intro hgood
    have hfn := reactionRemove_kept S ev
      { st := st₁,
        calls := s.Store.calls
          ++ [{ call := StoreCall.Message ev.ChannelID ev.MessageID, err := none }] }
      m pre post r hsplit hpre hr hhigh
      (fun hflag hnil => hgood ⟨hflag, by simpa [hme] using hnil⟩)
    rw [hw] at hfn
    have h := editMessage_changed S s ev.ChannelID ev.MessageID (reactionRemove S ev) m st₁ _
      hmsg hfn rfl
    simp only [hme] at h
    cases hflag : r.Me with
    | false =>
      simp only [hflag, Bool.false_eq_true, if_false] at h hset
      simp only [hset] at h
      simpa [onEvent, hflag] using h
    | true =>
      simp only [hflag, if_true] at h hset
      simp only [hset] at h
      simpa [onEvent, hflag] using h
  · cases me with
    | error e => simp [selfFlag]
    | neither => simp [selfFlag]
    | ok u =>
      simp only [selfFlag, Bool.and_eq_true, Bool.not_eq_true', decide_eq_false_iff_not,
        Lookup.ok.injEq, exists_eq_left']
      constructor
      · rintro ⟨h₁, h₂⟩
        exact ⟨h₁, fun h => h₂ h.symm⟩
      · rintro ⟨h₁, h₂⟩
        exact ⟨h₁, fun h => h₂ h.symm⟩

theorem reaction_remove_decrements_or_faults_witness :
    ((nilUserStore [partyRecord, { Count := 2, Me := true, Emoji := thumbsUp }]).Message
        freshState.Store.st (thumbsUpBy 11).ChannelID (thumbsUpBy 11).MessageID
      = (.ok (cachedMessage [partyRecord, { Count := 2, Me := true, Emoji := thumbsUp }]), 1)) ∧
      (∀ x ∈ [partyRecord], ¬ sameEmoji (thumbsUpBy 11).Emoji x) ∧
      sameEmoji (thumbsUpBy 11).Emoji { Count := 2, Me := true, Emoji := thumbsUp } ∧
      (2 : Int) ≤ (({ Count := 2, Me := true, Emoji := thumbsUp } : Reaction)).Count ∧
      ((nilUserStore [partyRecord, { Count := 2, Me := true, Emoji := thumbsUp }]).Me 1
        = (Lookup.neither, 2)) ∧
      onEvent (nilUserStore [partyRecord, { Count := 2, Me := true, Emoji := thumbsUp }])
          freshState (Event.MessageReactionRemove (thumbsUpBy 11))
        = .error Panic.nilDereference ∧
      onEvent (aliceStore [partyRecord, { Count := 2, Me := true, Emoji := thumbsUp }])
          freshState (Event.MessageReactionRemove (thumbsUpBy 11))
        = .ok { Store :=
                  { st := 3,
                    calls :=
                      [{ call := StoreCall.Message 70 500, err := none },
                       { call := StoreCall.Me, err := none },
                       { call := StoreCall.MessageSet
                           (cachedMessage
                             [partyRecord, { Count := 1, Me := false, Emoji := thumbsUp }]),
                         err := none }] },
                Ready := freshState.Ready,
                logged := [] } :=
  ⟨rfl, by decide, by decide, by decide, rfl,
    (reaction_remove_decrements_or_faults
      (nilUserStore [partyRecord, { Count := 2, Me := true, Emoji := thumbsUp }]) freshState
      (thumbsUpBy 11)
      (cachedMessage [partyRecord, { Count := 2, Me := true, Emoji := thumbsUp }]) 1 2 3
      [partyRecord] [] { Count := 2, Me := true, Emoji := thumbsUp } Lookup.neither none rfl
      rfl (by decide) (by decide) (by decide) (by decide) rfl rfl).1 ⟨rfl, rfl⟩,
    (reaction_remove_decrements_or_faults
      (aliceStore [partyRecord, { Count := 2, Me := true, Emoji := thumbsUp }]) freshState
      (thumbsUpBy 11)
      (cachedMessage [partyRecord, { Count := 2, Me := true, Emoji := thumbsUp }]) 1 2 3
      [partyRecord] [] { Count := 2, Me := true, Emoji := thumbsUp } (.ok alice) none rfl rfl
      (by decide) (by decide) (by decide) (by decide) rfl rfl).2.1 (by decide)⟩

/-- C8, amended: for every cached message that holds exactly one record for the event's
emoji, with count 1 or lower but above the smallest `int`, a MessageReactionRemoveEvent
by any user persists the message with that record deleted: the stored list is the old
list without it (other records unchanged, in their order), has no record for the emoji
and is one shorter. -/
theorem reaction_remove_deletes_record {σ : Type} (S : Store σ) (s : State σ)
    (ev : MessageReactionEvent) (m : Message) (st₁ st₂ : σ) (pre post : List Reaction)
    (r : Reaction) (err : Option GoError)
    (hmsg : S.Message s.Store.st ev.ChannelID ev.MessageID = (.ok m, st₁))
    (hsplit : m.Reactions = pre ++ r :: post)
    (hpre : ∀ x ∈ pre, ¬ sameEmoji ev.Emoji x) (hr : sameEmoji ev.Emoji r)
    (hpost : ∀ x ∈ post, ¬ sameEmoji ev.Emoji x)
    (hcount : r.Count ≤ 1) (hlo : minInt < r.Count)
    (hset : S.MessageSet st₁ { m with Reactions := pre ++ post } = (err, st₂)) :
    onEvent S s (Event.MessageReactionRemove ev)
        = .ok { Store :=
                  { st := st₂,
                    calls := s.Store.calls
                      ++ [{ call := StoreCall.Message ev.ChannelID ev.MessageID, err := none },
                          { call := StoreCall.MessageSet { m with Reactions := pre ++ post },
                            err := err }] },
                Ready := s.Ready,
                logged := s.logged ++ diag err "failed to save message in reaction add" } ∧
      (∀ x ∈ pre ++ post, ¬ sameEmoji ev.Emoji x) ∧
      (pre ++ post).length + 1 = m.Reactions.length := by
  refine ⟨?_, ?_, ?_⟩
  · have hlow : wrapInt (r.Count - 1) < 1 := by
      rw [wrapInt_of_range]
      · omega
      · unfold minInt at hlo ⊢
        omega
      · unfold maxInt
        omega
    have hfn := reactionRemove_last S ev
      { st := st₁,
        calls := s.Store.calls
          ++ [{ call := StoreCall.Message ev.ChannelID ev.MessageID, err := none }] }
      m pre post r hsplit hpre hr hlow
    have h := editMessage_changed S s ev.ChannelID ev.MessageID (reactionRemove S ev) m st₁ _
      hmsg hfn rfl
    simp only [hset] at h
    simpa [onEvent] using h
  · intro x hx
    rcases List.mem_append.mp hx with hx | hx
    · exact hpre x hx
    · exact hpost x hx
  · simp [hsplit]
    omega

theorem reaction_remove_deletes_record_witness :
    ((aliceStore [partyRecord, { Count := 1, Me := false, Emoji := thumbsUp }]).Message
        freshState.Store.st (thumbsUpBy 12).ChannelID (thumbsUpBy 12).MessageID
      = (.ok (cachedMessage [partyRecord, { Count := 1, Me := false, Emoji := thumbsUp }]), 1)) ∧
      (∀ x ∈ [partyRecord], ¬ sameEmoji (thumbsUpBy 12).Emoji x) ∧
      sameEmoji (thumbsUpBy 12).Emoji { Count := 1, Me := false, Emoji := thumbsUp } ∧
      (({ Count := 1, Me := false, Emoji := thumbsUp } : Reaction)).Count ≤ 1 ∧
      onEvent (aliceStore [partyRecord, { Count := 1, Me := false, Emoji := thumbsUp }])
          freshState (Event.MessageReactionRemove (thumbsUpBy 12))
        = .ok { Store :=
                  { st := 2,
                    calls :=
                      [{ call := StoreCall.Message 70 500, err := none },
                       { call := StoreCall.MessageSet (cachedMessage [partyRecord]),
                         err := none }] },
                Ready := freshState.Ready,
                logged := [] } :=
  ⟨rfl, by decide, by decide, by decide,
    (reaction_remove_deletes_record
      (aliceStore [partyRecord, { Count := 1, Me := false, Emoji := thumbsUp }]) freshState
      (thumbsUpBy 12)
      (cachedMessage [partyRecord, { Count := 1, Me := false, Emoji := thumbsUp }]) 1 2
      [partyRecord] [] { Count := 1, Me := false, Emoji := thumbsUp } none rfl rfl
      (by decide) (by decide) (by simp) (by decide) (by decide) rfl).1⟩

/-- C8 as stated fails at the smallest `int`: the one record for the emoji has count
`minInt`, which is lower than 1; the remove event does not delete it but stores it with
count `maxInt`, so the stored list still has a record for the emoji and is as long as
before. -/
theorem reaction_remove_wraps_at_minInt :
    (minInt ≤ 1) ∧
      onEvent (aliceStore [{ Count := minInt, Me := false, Emoji := thumbsUp }]) freshState
          (Event.MessageReactionRemove (thumbsUpBy 12))
        = .ok { Store :=
                  { st := 2,
                    calls :=
                      [{ call := StoreCall.Message 70 500, err := none },
                       { call := StoreCall.MessageSet
                           (cachedMessage [{ Count := maxInt, Me := false, Emoji := thumbsUp }]),
                         err := none }] },
                Ready := freshState.Ready,
                logged := [] } ∧
      (∃ x ∈ [({ Count := maxInt, Me := false, Emoji := thumbsUp } : Reaction)],
        sameEmoji (thumbsUpBy 12).Emoji x) :=
  ⟨by decide, rfl, by decide⟩

/-- C9: for every cached message, whatever its reaction list, a
MessageReactionRemoveAllEvent looks the message up and calls MessageSet exactly once,
with that message carrying an empty reaction list and every other field unchanged. -/
theorem reaction_remove_all_clears_list {σ : Type} (S : Store σ) (s : State σ)
    (ev : MessageReactionRemoveAllEvent) (m : Message) (st₁ st₂ : σ) (err : Option GoError)
    (hmsg : S.Message s.Store.st ev.ChannelID ev.MessageID = (.ok m, st₁))
    (hset : S.MessageSet st₁ { m with Reactions := [] } = (err, st₂)) :
    onEvent S s (Event.MessageReactionRemoveAll ev)
        = .ok { Store :=
                  { st := st₂,
                    calls := s.Store.calls
                      ++ [{ call := StoreCall.Message ev.ChannelID ev.MessageID, err := none },
                          { call := StoreCall.MessageSet
                              { ID := m.ID, ChannelID := m.ChannelID, GuildID := m.GuildID,
                                Author := m.Author, Content := m.Content, Reactions := [] },
                            err := err }] },
                Ready := s.Ready,
                logged := s.logged ++ diag err "failed to save message in reaction add" } := by
  have h := editMessage_changed S s ev.ChannelID ev.MessageID reactionRemoveAll m st₁
    { m := { m with Reactions := [] }, changed := true,
      store := { st := st₁,
                 calls := s.Store.calls
                   ++ [{ call := StoreCall.Message ev.ChannelID ev.MessageID, err := none }] } }
    hmsg rfl rfl
  simp only [hset] at h
  simpa [onEvent] using h

theorem reaction_remove_all_clears_list_witness :
    ((aliceStore [partyRecord, thumbsUpRecord]).Message freshState.Store.st
        removeAllEvent.ChannelID removeAllEvent.MessageID
      = (.ok (cachedMessage [partyRecord, thumbsUpRecord]), 1)) ∧
      onEvent (aliceStore [partyRecord, thumbsUpRecord]) freshState
          (Event.MessageReactionRemoveAll removeAllEvent)
        = .ok { Store :=
                  { st := 2,
                    calls :=
                      [{ call := StoreCall.Message 70 500, err := none },
                       { call := StoreCall.MessageSet (cachedMessage []), err := none }] },
                Ready := freshState.Ready,
                logged := [] } :=
  ⟨rfl,
    reaction_remove_all_clears_list (aliceStore [partyRecord, thumbsUpRecord]) freshState
      removeAllEvent (cachedMessage [partyRecord, thumbsUpRecord]) 1 2 none rfl rfl⟩

/-- C10: for every cached message, a MessageReactionRemoveEmoji event whose emoji has a
record (the first one being `r`, whatever its count) persists the message with the old
list minus `r`, the other records unchanged and in order; when no record has both the
emoji's id and its name, the message is looked up and nothing more happens: no
MessageSet, no diagnostic. -/
theorem reaction_remove_emoji_deletes_record {σ : Type} (S : Store σ) (s : State σ)
    (ev : MessageReactionRemoveEmoji) (m : Message) (st₁ : σ)
    (hmsg : S.Message s.Store.st ev.ChannelID ev.MessageID = (.ok m, st₁)) :
    (∀ (pre post : List Reaction) (r : Reaction) (err : Option GoError) (st₂ : σ),
      m.Reactions = pre ++ r :: post →
      (∀ x ∈ pre, ¬ sameEmoji ev.Emoji x) →
      sameEmoji ev.Emoji r →
      S.MessageSet st₁ { m with Reactions := pre ++ post } = (err, st₂) →
      onEvent S s (Event.MessageReactionRemoveEmoji ev)
        = .ok { Store :=
                  { st := st₂,
                    calls := s.Store.calls
                      ++ [{ call := StoreCall.Message ev.ChannelID ev.MessageID, err := none },
                          { call := StoreCall.MessageSet { m with Reactions := pre ++ post },
                            err := err }] },
                Ready := s.Ready,
                logged := s.logged ++ diag err "failed to save message in reaction add" }) ∧
    ((∀ x ∈ m.Reactions, ¬ sameEmoji ev.Emoji x) →
      onEvent S s (Event.MessageReactionRemoveEmoji ev)
        = .ok { Store :=
                  { st := st₁,
                    calls := s.Store.calls
                      ++ [{ call := StoreCall.Message ev.ChannelID ev.MessageID,
                            err := none }] },
                Ready := s.Ready,
                logged := s.logged }) := by
  refine ⟨?_, ?_⟩
  · intro pre post r err st₂ hsplit hpre hr hset
    have hfn := reactionRemoveEmoji_first ev
      { st := st₁,
        calls := s.Store.calls
          ++ [{ call := StoreCall.Message ev.ChannelID ev.MessageID, err := none }] }
      m pre post r hsplit hpre hr
    have h := editMessage_changed S s ev.ChannelID ev.MessageID (reactionRemoveEmoji ev) m st₁ _
      hmsg hfn rfl
    simp only [hset] at h
    simpa [onEvent] using h
  · intro hnew
    have hfn := reactionRemoveEmoji_absent ev
      { st := st₁,
        calls := s.Store.calls
          ++ [{ call := StoreCall.Message ev.ChannelID ev.MessageID, err := none }] }
      m hnew
    have h := editMessage_unchanged S s ev.ChannelID ev.MessageID (reactionRemoveEmoji ev) m st₁ _
      hmsg hfn rfl
    simpa [onEvent] using h

theorem reaction_remove_emoji_deletes_record_witness :
    (onEvent (aliceStore [partyRecord, thumbsUpRecord, partyRecord]) freshState
        (Event.MessageReactionRemoveEmoji removeThumbsUp)
      = .ok { Store :=
                { st := 2,
                  calls :=
                    [{ call := StoreCall.Message 70 500, err := none },
                     { call := StoreCall.MessageSet (cachedMessage [partyRecord, partyRecord]),
                       err := none }] },
              Ready := freshState.Ready,
              logged := [] }) ∧
      (onEvent (aliceStore [partyRecord]) freshState
          (Event.MessageReactionRemoveEmoji removeThumbsUp)
        = .ok { Store :=
                  { st := 1, calls := [{ call := StoreCall.Message 70 500, err := none }] },
                Ready := freshState.Ready,
                logged := [] }) :=
  ⟨(reaction_remove_emoji_deletes_record (aliceStore [partyRecord, thumbsUpRecord, partyRecord])
      freshState removeThumbsUp (cachedMessage [partyRecord, thumbsUpRecord, partyRecord]) 1
      rfl).1 [partyRecord] [partyRecord] thumbsUpRecord none 2 rfl (by decide) (by decide) rfl,
    (reaction_remove_emoji_deletes_record (aliceStore [partyRecord]) freshState removeThumbsUp
      (cachedMessage [partyRecord]) 1 rfl).2 (by decide)⟩

/-! ## Lookup misses -/

/-- C11: for each of the four reaction events, when the message lookup for the event's
(channel, message) fails, `onEvent` makes that lookup and nothing else: no MessageSet, no
self-user lookup (the edit is not run), no diagnostic.  Likewise a reaction remove whose
emoji has no record in the cached message makes the lookup only: no MessageSet and no
diagnostic. -/
theorem reaction_lookup_miss_is_noop {σ : Type} (S : Store σ) (s : State σ) :
    (∀ (ev : Event) (ch msg : Snowflake) (e : GoError) (st₁ : σ),
      ev.reactionTarget = some (ch, msg) →
      S.Message s.Store.st ch msg = (.error e, st₁) →
      onEvent S s ev
        = .ok { Store :=
                  { st := st₁,
                    calls := s.Store.calls
                      ++ [{ call := StoreCall.Message ch msg, err := some e }] },
                Ready := s.Ready,
                logged := s.logged }) ∧
    (∀ (ev : MessageReactionEvent) (m : Message) (st₁ : σ),
      S.Message s.Store.st ev.ChannelID ev.MessageID = (.ok m, st₁) →
      (∀ r ∈ m.Reactions, ¬ sameEmoji ev.Emoji r) →
      onEvent S s (Event.MessageReactionRemove ev)
        = .ok { Store :=
                  { st := st₁,
                    calls := s.Store.calls
                      ++ [{ call := StoreCall.Message ev.ChannelID ev.MessageID,
                            err := none }] },
                Ready := s.Ready,
                logged := s.logged }) := by
  refine ⟨?_, ?_⟩
  · intro ev ch msg e st₁ htarget hmiss
    cases ev <;>
      simp only [Event.reactionTarget, Option.some.injEq, Prod.mk.injEq, reduceCtorEq]
        at htarget
    all_goals
      obtain ⟨rfl, rfl⟩ := htarget
      simp [onEvent, editMessage, Conn.Message, Conn.lookup, hmiss, lookupErr]
  · intro ev m st₁ hmsg habsent
    have hfn := reactionRemove_absent S ev
      { st := st₁,
        calls := s.Store.calls
          ++ [{ call := StoreCall.Message ev.ChannelID ev.MessageID, err := none }] }
      m habsent
    have h := editMessage_unchanged S s ev.ChannelID ev.MessageID (reactionRemove S ev) m st₁ _
      hmsg hfn rfl
    simpa [onEvent] using h

theorem reaction_lookup_miss_is_noop_witness :
    (onEvent emptyStore freshState (Event.MessageReactionAdd (thumbsUpBy 11))
      = .ok { Store :=
                { st := 1,
                  calls := [{ call := StoreCall.Message 70 500,
                              err := some (GoError.plain "not found") }] },
              Ready := freshState.Ready,
              logged := [] }) ∧
      (onEvent emptyStore freshState (Event.MessageReactionRemoveAll removeAllEvent)
        = .ok { Store :=
                  { st := 1,
                    calls := [{ call := StoreCall.Message 70 500,
                                err := some (GoError.plain "not found") }] },
                Ready := freshState.Ready,
                logged := [] }) ∧
      (onEvent (aliceStore [partyRecord]) freshState
          (Event.MessageReactionRemove (thumbsUpBy 11))
        = .ok { Store :=
                  { st := 1, calls := [{ call := StoreCall.Message 70 500, err := none }] },
                Ready := freshState.Ready,
                logged := [] }) :=
  ⟨(reaction_lookup_miss_is_noop emptyStore freshState).1
      (Event.MessageReactionAdd (thumbsUpBy 11)) 70 500 (GoError.plain "not found") 1 rfl rfl,
    (reaction_lookup_miss_is_noop emptyStore freshState).1
      (Event.MessageReactionRemoveAll removeAllEvent) 70 500 (GoError.plain "not found") 1
      rfl rfl,
    (reaction_lookup_miss_is_noop (aliceStore [partyRecord]) freshState).2 (thumbsUpBy 11)
      (cachedMessage [partyRecord]) 1 rfl (by decide)⟩

/-- C12: for every GuildMemberUpdateEvent whose member lookup fails, `onEvent` applies
the event's `Update` to the zero member and calls MemberSet exactly once, with the
event's community id and that merged record, which holds the update's user, nick and
roles and nothing else; the failed lookup logs nothing, and the diagnostics grow by
nothing when MemberSet succeeds and by exactly one when it fails. -/
theorem member_update_without_record {σ : Type} (S : Store σ) (s : State σ)
    (ev : GuildMemberUpdateEvent) (e : GoError) (st₁ st₂ : σ) (err : Option GoError)
    (hmiss : S.Member s.Store.st ev.GuildID ev.User.ID = (.error e, st₁))
    (hset : S.MemberSet st₁ ev.GuildID (ev.Update zeroMember) = (err, st₂)) :
    onEvent S s (Event.GuildMemberUpdate ev)
        = .ok { Store :=
                  { st := st₂,
                    calls := s.Store.calls
                      ++ [{ call := StoreCall.Member ev.GuildID ev.User.ID, err := some e },
                          { call := StoreCall.MemberSet ev.GuildID (ev.Update zeroMember),
                            err := err }] },
                Ready := s.Ready,
                logged := s.logged ++ diag err "failed to update a member in state" } ∧
      ev.Update zeroMember
        = { User := ev.User, Nick := ev.Nick, RoleIDs := ev.RoleIDs, Deaf := false,
            Mute := false } ∧
      (diag err "failed to update a member in state" = [] ↔ err = none) ∧
      (err ≠ none → (diag err "failed to update a member in state").length = 1) := by
  refine ⟨?_, rfl, ?_, ?_⟩
  · simp [onEvent, Conn.Member, Conn.lookup, hmiss, lookupErr, State.check_eq, Conn.MemberSet,
      Conn.invoke, hset]
  · cases err <;> simp [diag]
  · cases err <;> simp [diag]

theorem member_update_without_record_witness :
    (refuseAll.Member freshState.Store.st bobUpdate.GuildID bobUpdate.User.ID
        = (.error (GoError.plain "not found"), 1)) ∧
      onEvent refuseAll freshState (Event.GuildMemberUpdate bobUpdate)
        = .ok { Store :=
                  { st := 2,
                    calls :=
                      [{ call := StoreCall.Member 7 12,
                         err := some (GoError.plain "not found") },
                       { call := StoreCall.MemberSet 7
                           { User := bob, Nick := "bobby", RoleIDs := [3, 4], Deaf := false,
                             Mute := false },
                         err := some (GoError.plain "refused") }] },
                Ready := freshState.Ready,
                logged := [Wrap (GoError.plain "refused")
                  "failed to update a member in state"] } :=
  ⟨rfl,
    (member_update_without_record refuseAll freshState bobUpdate (GoError.plain "not found")
      1 2 (some (GoError.plain "refused")) rfl rfl).1⟩

/-! ## Snapshot patches and voice states -/

/-- C18: for every UserGuildSettingsUpdateEvent and every snapshot, `onEvent` makes no
store call and logs nothing; in the per-community settings list every entry whose
community id is the event's is replaced by the event's settings and every other entry is
unchanged, position by position, so the length is unchanged and nothing is appended;
when no entry has the event's community id the list is exactly as it was.  The other
fields of the snapshot are unchanged. -/
theorem user_guild_settings_patched_in_place {σ : Type} (S : Store σ) (s : State σ)
    (ev : UserGuildSettings) :
    ∃ s', onEvent S s (Event.UserGuildSettingsUpdate ev) = .ok s' ∧
      s'.Store = s.Store ∧ s'.logged = s.logged ∧
      s'.Ready = { s.Ready with UserGuildSettings := s'.Ready.UserGuildSettings } ∧
      s'.Ready.UserGuildSettings.length = s.Ready.UserGuildSettings.length ∧
      (∀ (i : Nat) (old : UserGuildSettings), s.Ready.UserGuildSettings[i]? = some old →
        (old.GuildID = ev.GuildID → s'.Ready.UserGuildSettings[i]? = some ev) ∧
        (old.GuildID ≠ ev.GuildID → s'.Ready.UserGuildSettings[i]? = some old)) ∧
      ((∀ old ∈ s.Ready.UserGuildSettings, old.GuildID ≠ ev.GuildID) →
        s'.Ready.UserGuildSettings = s.Ready.UserGuildSettings) := by
  refine ⟨_, rfl, rfl, rfl, rfl, ?_, ?_, ?_⟩
  · simp
  · intro i old hold
    simp only [List.getElem?_map, hold, Option.map_some']
    constructor
    · intro h
      rw [if_pos h]
    · intro h
      rw [if_neg h]
  · intro hnone
    have hmap : ∀ xs : List UserGuildSettings, (∀ old ∈ xs, old.GuildID ≠ ev.GuildID) →
        xs.map (fun ugs => if ugs.GuildID = ev.GuildID then ev else ugs) = xs := by
      intro xs hxs
      induction xs with
      | nil => rfl
      | cons x xs ih =>
        rw [List.map_cons, if_neg (hxs x (List.mem_cons_self x xs)),
          ih (fun old h => hxs old (List.mem_cons_of_mem x h))]
    exact hmap _ hnone

/-- C19: for every VoiceStateUpdateEvent, `onEvent` makes exactly one store call and
leaves the snapshot alone: VoiceStateRemove with the state's community and user ids when
the state's channel id is 0, VoiceStateSet with the state's community id and the state
otherwise; it logs exactly one diagnostic when that call fails and none when it
succeeds. -/
theorem voice_state_update_one_call {σ : Type} (S : Store σ) (s : State σ)
    (ev : VoiceState) :
    ∃ s', onEvent S s (Event.VoiceStateUpdate ev) = .ok s' ∧
      s'.Ready = s.Ready ∧
      (ev.ChannelID = 0 →
        s'.Store.st = (S.VoiceStateRemove s.Store.st ev.GuildID ev.UserID).2 ∧
        s'.Store.calls = s.Store.calls
          ++ [{ call := StoreCall.VoiceStateRemove ev.GuildID ev.UserID,
                err := (S.VoiceStateRemove s.Store.st ev.GuildID ev.UserID).1 }] ∧
        s'.logged = s.logged
          ++ diag (S.VoiceStateRemove s.Store.st ev.GuildID ev.UserID).1
              "failed to remove voice state from state") ∧
      (ev.ChannelID ≠ 0 →
        s'.Store.st = (S.VoiceStateSet s.Store.st ev.GuildID ev).2 ∧
        s'.Store.calls = s.Store.calls
          ++ [{ call := StoreCall.VoiceStateSet ev.GuildID ev,
                err := (S.VoiceStateSet s.Store.st ev.GuildID ev).1 }] ∧
        s'.logged = s.logged
          ++ diag (S.VoiceStateSet s.Store.st ev.GuildID ev).1
              "failed to update voice state in state") ∧
      (callsSince s.Store s'.Store).length = 1 ∧
      s'.logged.length = s.logged.length
        + (callsSince s.Store s'.Store).countP (fun r => r.failed) := by
  by_cases hch : ev.ChannelID = 0
  · refine ⟨s.check (s.Store.VoiceStateRemove S ev.GuildID ev.UserID)
        "failed to remove voice state from state",
      by simp only [onEvent, if_pos hch], ?_, ?_, ?_, ?_, ?_⟩
    · simp [State.check_eq]
    · intro _
      simp [State.check_eq, Conn.VoiceStateRemove, Conn.invoke]
    · intro h
      exact absurd hch h
    · simp [State.check_eq, Conn.VoiceStateRemove, Conn.invoke, callsSince]
    · cases h : (S.VoiceStateRemove s.Store.st ev.GuildID ev.UserID).1 <;>
        simp [State.check_eq, Conn.VoiceStateRemove, Conn.invoke, callsSince, h, diag,
          CallRecord.failed]
  · refine ⟨s.check (s.Store.VoiceStateSet S ev.GuildID ev)
        "failed to update voice state in state",
      by simp only [onEvent, if_neg hch], ?_, ?_, ?_, ?_, ?_⟩
    · simp [State.check_eq]
    · intro h
      exact absurd h hch
    · intro _
      simp [State.check_eq, Conn.VoiceStateSet, Conn.invoke]
    · simp [State.check_eq, Conn.VoiceStateSet, Conn.invoke, callsSince]
    · cases h : (S.VoiceStateSet s.Store.st ev.GuildID ev).1 <;>
        simp [State.check_eq, Conn.VoiceStateSet, Conn.invoke, callsSince, h, diag,
          CallRecord.failed]

/-! ## Resync -/

theorem Grows.lift {σ : Type} {S : Store σ} {c : Conn σ} {r : List GoError × Conn σ}
    {cs : List StoreCall} (h : Grows S ([], c) r cs) (logged : List GoError) :
    Grows S (logged, c) (logged ++ r.1, r.2) cs := by
  obtain ⟨hst, hcalls, hlen⟩ := h
  refine ⟨hst, hcalls, ?_⟩
  simp only [List.length_append, hlen, List.length_nil, Nat.zero_add]

theorem storeGuildCreate_ingestion {σ : Type} (S : Store σ) (c : Conn σ)
    (g : GuildCreateEvent) :
    Grows S ([], c) (storeGuildCreate S c g) (ingestionCalls g) := by
  cases h : g.Unavailable with
  | false =>
    simpa [ingestionCalls, h] using storeGuildCreate_grows S c g h
  | true =>
    simpa [ingestionCalls, storeGuildCreate, h] using Grows.refl S ([], c)

theorem State.check_grows {σ : Type} (S : Arikawa.Store σ) (s : State σ) (call : StoreCall)
    (wrap : String) :
    Grows S s.view (s.check (s.Store.invoke call (S.perform s.Store.st call)) wrap).view
      [call] := by
  rw [State.check_eq]
  cases h : (S.perform s.Store.st call).1 <;>
    simp [Grows, State.view, Conn.invoke, h, diag, CallRecord.failed, Store.replay]

theorem State.ingest_grows {σ : Type} (S : Arikawa.Store σ) (s : State σ) (g : GuildCreateEvent) :
    Grows S s.view
      (batchLog { s with Store := (storeGuildCreate S s.Store g).2 }
        (storeGuildCreate S s.Store g).1).view
      (ingestionCalls g) := by
  rw [batchLog_logged]
  exact Grows.lift (storeGuildCreate_ingestion S s.Store g) s.logged

theorem State.foldl_grows {σ α : Type} (S : Arikawa.Store σ) (f : α → List StoreCall)
    (step : State σ → α → State σ)
    (hstep : ∀ s x, Grows S s.view (step s x).view (f x)) (xs : List α) (s : State σ) :
    Grows S s.view (xs.foldl step s).view (xs.flatMap f) := by
  induction xs generalizing s with
  | nil => exact Grows.refl S s.view
  | cons x xs ih =>
    have h := Grows.trans (hstep s x) (ih (step s x))
    simpa using h

theorem State.foldl_Ready {σ α : Type} (step : State σ → α → State σ)
    (hstep : ∀ s x, (step s x).Ready = s.Ready) (xs : List α) (s : State σ) :
    (xs.foldl step s).Ready = s.Ready := by
  induction xs generalizing s with
  | nil => rfl
  | cons x xs ih => rw [List.foldl_cons, ih, hstep]

theorem flatMap_singleton_map {α β : Type} (f : α → β) (xs : List α) :
    xs.flatMap (fun x => [f x]) = xs.map f := by
  induction xs with
  | nil => rfl
  | cons x xs ih => simp [List.flatMap_cons, ih]

theorem State.foldl_grows_map {σ α : Type} (S : Arikawa.Store σ) (f : α → StoreCall)
    (step : State σ → α → State σ)
    (hstep : ∀ s x, Grows S s.view (step s x).view [f x]) (xs : List α) (s : State σ) :
    Grows S s.view (xs.foldl step s).view (xs.map f) := by
  have h := State.foldl_grows S (fun x => [f x]) step hstep xs s
  rwa [flatMap_singleton_map] at h

theorem State.check_Ready {σ : Type} (s : State σ) (r : Option GoError × Conn σ)
    (wrap : String) : (s.check r wrap).Ready = s.Ready := by
  rw [State.check_eq]

theorem onEvent_ready {σ : Type} (S : Store σ) (s : State σ) (ev : ReadyEvent) :
    ∃ s', onEvent S s (Event.Ready ev) = .ok s' ∧
      Grows S s.view s'.view (readyCalls S.Reset.isSome ev) ∧ s'.Ready = ev := by
  have hreset : ∃ s₀ : State σ,
      (match S.Reset with
        | some reset =>
          s.check (s.Store.invoke StoreCall.Reset (reset s.Store.st))
            "Failed to reset state on READY"
        | none => s) = s₀ ∧
      Grows S s.view s₀.view (if S.Reset.isSome then [StoreCall.Reset] else []) := by
    cases hS : S.Reset with
    | none => exact ⟨s, rfl, by simpa using Grows.refl S s.view⟩
    | some reset =>
      refine ⟨_, rfl, ?_⟩
      have h := State.check_grows S s StoreCall.Reset "Failed to reset state on READY"
      simpa [Store.perform, hS] using h
  obtain ⟨s₀, hs₀, hg₀⟩ := hreset
  simp only [onEvent, hs₀]
  refine ⟨_, rfl, ?_, ?_⟩
  · unfold readyCalls resyncCalls
    refine Grows.trans hg₀ ?_
    refine Grows.trans ?_ (State.check_grows S _ (StoreCall.MyselfSet ev.User) _)
    refine Grows.trans ?_
      (State.foldl_grows_map S (fun ch => StoreCall.ChannelSet ch) _
        (fun s ch => State.check_grows S s (StoreCall.ChannelSet ch) _) _ _)
    refine Grows.trans ?_
      (State.foldl_grows S ingestionCalls _ (fun s g => State.ingest_grows S s g) _ _)
    exact State.foldl_grows_map S (fun p => StoreCall.PresenceSet 0 p) _
      (fun s p => State.check_grows S s (StoreCall.PresenceSet 0 p) _) _
      { s₀ with Ready := ev }
  · rw [State.check_Ready, State.foldl_Ready _ (fun s ch => State.check_Ready s _ _),
      State.foldl_Ready _ (fun s g => by rw [batchLog_logged]),
      State.foldl_Ready _ (fun s p => State.check_Ready s _ _)]

theorem guildCreateCalls_no_reset (g : GuildCreateEvent) :
    ∀ c ∈ guildCreateCalls g, c ≠ StoreCall.Reset := by
  intro c hc
  unfold guildCreateCalls at hc
  simp only [List.mem_append, List.mem_map, List.mem_singleton] at hc
  rcases hc with ((((hc | hc) | hc) | hc) | hc) | hc
  · subst hc
    simp
  · cases hE : g.Guild.Emojis with
    | none => simp [hE] at hc
    | some es =>
      simp only [hE, List.mem_singleton] at hc
      subst hc
      simp
  · obtain ⟨_, _, rfl⟩ := hc
    simp
  · obtain ⟨_, _, rfl⟩ := hc
    simp
  · obtain ⟨_, _, rfl⟩ := hc
    simp
  · obtain ⟨_, _, rfl⟩ := hc
    simp

theorem resyncCalls_no_reset (ev : ReadyEvent) :
    ∀ c ∈ resyncCalls ev, c ≠ StoreCall.Reset := by
  intro c hc
  unfold resyncCalls at hc
  simp only [List.mem_append, List.mem_map, List.mem_singleton, List.mem_flatMap] at hc
  rcases hc with ((hc | hc) | hc) | hc
  · obtain ⟨_, _, rfl⟩ := hc
    simp
  · obtain ⟨g, _, hg⟩ := hc
    unfold ingestionCalls at hg
    split at hg
    · simp at hg
    · exact guildCreateCalls_no_reset g c hg
  · obtain ⟨_, _, rfl⟩ := hc
    simp
  · subst hc
    simp

theorem callsSince_of_grows {σ : Type} {S : Store σ} {s s' : State σ} {cs : List StoreCall}
    (h : Grows S s.view s'.view cs) :
    callsSince s.Store s'.Store = (S.replay s.Store.st cs).1 := by
  obtain ⟨_, hcalls, _⟩ := h
  simp only [State.view] at hcalls
  simp [callsSince, hcalls]

/-- C13: for every ReadyEvent, when the store has the reset capability `onEvent` calls
Reset exactly once and before every other store call of the event (the calls of the
community ingestions included); when the store lacks the capability no Reset is
attempted, and every diagnostic logged is the one of a failed call, so none is logged
for the absence. -/
theorem ready_resets_store_first {σ : Type} (S : Store σ) (s : State σ) (ev : ReadyEvent) :
    ∃ s', onEvent S s (Event.Ready ev) = .ok s' ∧
      s'.Store.calls = s.Store.calls ++ callsSince s.Store s'.Store ∧
      (∀ reset, S.Reset = some reset →
        ∃ rest, callsSince s.Store s'.Store
            = { call := StoreCall.Reset, err := (reset s.Store.st).1 } :: rest ∧
          rest.map (fun r => r.call) = resyncCalls ev ∧
          ∀ r ∈ rest, r.call ≠ StoreCall.Reset) ∧
      (S.Reset = none →
        (callsSince s.Store s'.Store).map (fun r => r.call) = resyncCalls ev ∧
        (∀ r ∈ callsSince s.Store s'.Store, r.call ≠ StoreCall.Reset) ∧
        s'.logged.length = s.logged.length
          + (callsSince s.Store s'.Store).countP (fun r => r.failed)) := by
  obtain ⟨s', hev, hgrows, _⟩ := onEvent_ready S s ev
  have hsince := callsSince_of_grows hgrows
  obtain ⟨_, hcalls, hlen⟩ := hgrows
  simp only [State.view] at hcalls hlen
  refine ⟨s', hev, by rw [hsince]; exact hcalls, ?_, ?_⟩
  · intro reset hS
    have hrc : readyCalls S.Reset.isSome ev = StoreCall.Reset :: resyncCalls ev := by
      simp [readyCalls, hS]
    rw [hsince, hrc]
    refine ⟨(S.replay (reset s.Store.st).2 (resyncCalls ev)).1, ?_, ?_, ?_⟩
    · simp [Store.replay, Store.perform, hS]
    · exact Store.replay_calls S _ _
    · intro r hr
      have hmem : r.call ∈ (S.replay (reset s.Store.st).2 (resyncCalls ev)).1.map
          (fun r => r.call) := List.mem_map.mpr ⟨r, hr, rfl⟩
      rw [Store.replay_calls] at hmem
      exact resyncCalls_no_reset ev r.call hmem
  · intro hS
    have hrc : readyCalls S.Reset.isSome ev = resyncCalls ev := by
      simp [readyCalls, hS]
    rw [hrc] at hsince hlen
    refine ⟨?_, ?_, ?_⟩
    · rw [hsince, Store.replay_calls]
    · intro r hr
      rw [hsince] at hr
      have hmem : r.call ∈ (S.replay s.Store.st (resyncCalls ev)).1.map (fun r => r.call) :=
        List.mem_map.mpr ⟨r, hr, rfl⟩
      rw [Store.replay_calls] at hmem
      exact resyncCalls_no_reset ev r.call hmem
    · rw [hsince]
      exact hlen

/-- C14: for every ReadyEvent and every store, `onEvent` sets the snapshot to the event
and makes exactly the calls of `readyCalls` (Reset when the store has the capability,
PresenceSet at scope 0 per presence, the ingestion of every community, ChannelSet per
private channel, MyselfSet with the event's user), in order and each one whatever the
earlier ones returned; the number of diagnostics logged is the number of those calls
that failed, a failed Reset and the failed calls of the ingestions (one returned error
each) included. -/
theorem ready_attempts_every_step {σ : Type} (S : Store σ) (s : State σ) (ev : ReadyEvent) :
    ∃ s', onEvent S s (Event.Ready ev) = .ok s' ∧
      s'.Ready = ev ∧
      s'.Store.st = (S.replay s.Store.st (readyCalls S.Reset.isSome ev)).2 ∧
      s'.Store.calls
        = s.Store.calls ++ (S.replay s.Store.st (readyCalls S.Reset.isSome ev)).1 ∧
      (S.replay s.Store.st (readyCalls S.Reset.isSome ev)).1.map (fun r => r.call)
        = readyCalls S.Reset.isSome ev ∧
      s'.logged.length = s.logged.length
        + (S.replay s.Store.st (readyCalls S.Reset.isSome ev)).1.countP
            (fun r => r.failed) := by
  obtain ⟨s', hev, ⟨hst, hcalls, hlen⟩, hready⟩ := onEvent_ready S s ev
  exact ⟨s', hev, hready, hst, hcalls, Store.replay_calls S _ _, hlen⟩

theorem ready_sample_calls :
    (onEvent refuseAlice freshState (Event.Ready sampleReady)).toOption.map
        (fun s => (s.Store.calls.map (fun r => (r.call, r.failed)), s.logged.length))
      = some
          ([(StoreCall.Reset, false),
            (StoreCall.PresenceSet 0 { User := bob, GuildID := 0, Status := "idle" }, false),
            (StoreCall.GuildSet sampleGuild.Guild, false),
            (StoreCall.EmojiSet 7 [party], false),
            (StoreCall.MemberSet 7 aliceMember, true),
            (StoreCall.MemberSet 7 bobMember, false),
            (StoreCall.ChannelSet { ID := 70, GuildID := 7, Name := "general", Topic := "" },
              false),
            (StoreCall.ChannelSet { ID := 71, GuildID := 7, Name := "voice", Topic := "t" },
              false),
            (StoreCall.PresenceSet 7 { User := alice, GuildID := 7, Status := "online" },
              false),
            (StoreCall.VoiceStateSet 7
              { GuildID := 7, ChannelID := 71, UserID := 12, SessionID := "s" }, false),
            (StoreCall.ChannelSet { ID := 90, GuildID := 0, Name := "dm", Topic := "" }, false),
            (StoreCall.MyselfSet alice, false)], 1) := by
  decide

theorem ready_sample_without_reset :
    (onEvent (withoutReset refuseAll) freshState (Event.Ready sampleReady)).toOption.map
        (fun s => (s.Store.calls.map (fun r => r.call.isReset), s.logged.length))
      = some (List.replicate 11 false, 11) := by
  decide

/-! ## The reaction-list invariant -/

theorem first_match_split (rs : List Reaction) (emoji : Emoji) :
    (∀ r ∈ rs, ¬ sameEmoji emoji r) ∨
      ∃ pre r post, rs = pre ++ r :: post ∧ (∀ x ∈ pre, ¬ sameEmoji emoji x) ∧
        sameEmoji emoji r := by
  induction rs with
  | nil => exact Or.inl (fun r hr => absurd hr (List.not_mem_nil r))
  | cons a rest ih =>
    by_cases ha : sameEmoji emoji a
    · exact Or.inr ⟨[], a, rest, rfl, fun x hx => absurd hx (List.not_mem_nil x), ha⟩
    · rcases ih with hnone | ⟨pre, r, post, hsplit, hpre, hr⟩
      · refine Or.inl (fun r hr => ?_)
        rcases List.mem_cons.mp hr with rfl | hr
        · exact ha
        · exact hnone r hr
      · refine Or.inr ⟨a :: pre, r, post, by rw [hsplit, List.cons_append], ?_, hr⟩
        intro x hx
        rcases List.mem_cons.mp hx with rfl | hx
        · exact ha
        · exact hpre x hx

theorem ReactionsOK.nil : ReactionsOK [] :=
  ⟨List.Pairwise.nil, fun r hr => absurd hr (List.not_mem_nil r)⟩

theorem OnlyMe.unchanged {σ : Type} (c : Conn σ) : OnlyMe c c :=
  ⟨[], by simp, fun r hr => absurd hr (List.not_mem_nil r)⟩

theorem reactionRemoveAll_keeps {σ : Type} (c : Conn σ) (m : Message) :
    ∃ e, reactionRemoveAll c m = .ok e ∧ OnlyMe c e.store ∧
      (e.changed = true → ReactionsOK e.m.Reactions) :=
  ⟨_, rfl, OnlyMe.unchanged c, fun _ => ReactionsOK.nil⟩

theorem reactionAdd_total {σ : Type} (S : Store σ) (ev : MessageReactionEvent) (c : Conn σ)
    (m : Message) : ∃ e, reactionAdd S ev c m = .ok e := by
  rcases first_match_split m.Reactions ev.Emoji with hnew | ⟨pre, r, post, hsplit, hpre, hr⟩
  · exact ⟨_, reactionAdd_absent S ev c m hnew⟩
  · exact ⟨_, reactionAdd_first S ev c m pre post r hsplit hpre hr⟩

theorem reactionRemove_total {σ : Type} (S : Store σ) (ev : MessageReactionEvent)
    (c : Conn σ) (m : Message) (hme : (S.Me c.st).1 ≠ Lookup.neither) :
    ∃ e, reactionRemove S ev c m = .ok e := by
  rcases first_match_split m.Reactions ev.Emoji with hnew | ⟨pre, r, post, hsplit, hpre, hr⟩
  · exact ⟨_, reactionRemove_absent S ev c m hnew⟩
  · by_cases hlow : wrapInt (r.Count - 1) < 1
    · exact ⟨_, reactionRemove_last S ev c m pre post r hsplit hpre hr hlow⟩
    · exact ⟨_, reactionRemove_kept S ev c m pre post r hsplit hpre hr hlow (fun _ => hme)⟩

theorem reactionRemoveEmoji_total {σ : Type} (ev : MessageReactionRemoveEmoji) (c : Conn σ)
    (m : Message) : ∃ e, reactionRemoveEmoji (σ := σ) ev c m = .ok e := by
  rcases first_match_split m.Reactions ev.Emoji with hnew | ⟨pre, r, post, hsplit, hpre, hr⟩
  · exact ⟨_, reactionRemoveEmoji_absent ev c m hnew⟩
  · exact ⟨_, reactionRemoveEmoji_first ev c m pre post r hsplit hpre hr⟩

theorem editMessage_total {σ : Type} (S : Store σ) (s : State σ) (ch msg : Snowflake)
    (fn : Conn σ → Message → Except Panic (Edit σ))
    (hmsg : (S.Message s.Store.st ch msg).1 ≠ Lookup.neither)
    (hfn : ∀ m, ∃ e, fn (s.Store.Message S ch msg).2 m = .ok e) :
    ∃ s', editMessage S s ch msg fn = .ok s' := by
  simp only [editMessage]
  cases hm : (s.Store.Message S ch msg).1 with
  | error e => exact ⟨_, rfl⟩
  | neither => exact absurd hm hmsg
  | ok m =>
    obtain ⟨e, he⟩ := hfn m
    simp only [he]
    cases e.changed <;> exact ⟨_, rfl⟩

theorem onEvent_total {σ : Type} (S : Store σ) (s : State σ) (ev : Event)
    (hnotes : ∀ ne, ev = Event.UserNoteUpdate ne → s.Ready.Notes ≠ none)
    (hstore : S.NeverNeither) :
    ∃ s', onEvent S s ev = .ok s' := by
  obtain ⟨hMe, hMessage, hMember⟩ := hstore
  cases ev
  case Ready ev =>
    obtain ⟨s', h, _⟩ := onEvent_ready S s ev
    exact ⟨s', h⟩
  case GuildDelete ev =>
    simp only [onEvent]
    cases (s.Store.GuildRemove S ev.ID).1 with
    | none => exact ⟨_, rfl⟩
    | some err => cases ev.Unavailable <;> exact ⟨_, rfl⟩
  case GuildMemberUpdate ev =>
    simp only [onEvent]
    cases hm : (s.Store.Member S ev.GuildID ev.User.ID).1 with
    | neither => exact absurd hm (hMember _ _ _)
    | error e => exact ⟨_, rfl⟩
    | ok m => exact ⟨_, rfl⟩
  case MessageReactionAdd ev =>
    exact editMessage_total S s _ _ _ (hMessage _ _ _) (reactionAdd_total S ev _)
  case MessageReactionRemove ev =>
    exact editMessage_total S s _ _ _ (hMessage _ _ _)
      (fun m => reactionRemove_total S ev _ m (hMe _))
  case MessageReactionRemoveAll ev =>
    exact editMessage_total S s ev.ChannelID ev.MessageID reactionRemoveAll (hMessage _ _ _)
      (fun m => reactionRemoveAll_keeps _ m |>.imp (fun _ h => h.1))
  case MessageReactionRemoveEmoji ev =>
    exact editMessage_total S s _ _ _ (hMessage _ _ _) (reactionRemoveEmoji_total ev _)
  case UserNoteUpdate ev =>
    cases hn : s.Ready.Notes with
    | none => exact absurd hn (hnotes ev rfl)
    | some notes =>
      simp only [onEvent, hn]
      exact ⟨_, rfl⟩
  case VoiceStateUpdate ev =>
    simp only [onEvent]
    split <;> exact ⟨_, rfl⟩
  all_goals exact ⟨_, rfl⟩

theorem onEvent_note_update_nil {σ : Type} (S : Store σ) (s : State σ)
    (ev : UserNoteUpdateEvent) (hn : s.Ready.Notes = none) :
    onEvent S s (Event.UserNoteUpdate ev) = .error Panic.nilMapWrite := by
  simp only [onEvent, hn]

/-- C15: the claim fails on the code.  In the state in which no resync has initialised
the snapshot (the note mapping is nil), a UserNoteUpdateEvent makes `onEvent` stop with
the fault of writing into a nil map: it yields no state and no diagnostics.  With a
store whose getters never return a nil record together with a nil error, that is the
only fault: on every other event, and on a note update when the note mapping is not nil,
`onEvent` runs to completion in every state. -/
theorem note_update_faults_without_resync :
    (freshState.Ready.Notes = none ∧
      onEvent emptyStore freshState (Event.UserNoteUpdate sampleNote)
        = .error Panic.nilMapWrite) ∧
    (∀ (σ : Type) (S : Store σ) (s : State σ) (ev : Event),
      (∀ ne, ev = Event.UserNoteUpdate ne → s.Ready.Notes ≠ none) →
      S.NeverNeither →
      ∃ s', onEvent S s ev = .ok s') :=
  ⟨⟨rfl, rfl⟩, fun _ S s ev hnotes hstore => onEvent_total S s ev hnotes hstore⟩

theorem note_update_faults_without_resync_witness :
    (∀ ne, Event.MessageReactionRemoveAll removeAllEvent = Event.UserNoteUpdate ne →
        freshState.Ready.Notes ≠ none) ∧
      (aliceStore [partyRecord]).NeverNeither ∧
      ∃ s', onEvent (aliceStore [partyRecord]) freshState
          (Event.MessageReactionRemoveAll removeAllEvent) = .ok s' :=
  ⟨fun _ h => (by cases h),
    ⟨fun _ h => (by cases h), fun _ _ _ h => (by cases h), fun _ _ _ h => (by cases h)⟩,
    note_update_faults_without_resync.2 Nat (aliceStore [partyRecord]) freshState
      (Event.MessageReactionRemoveAll removeAllEvent) (fun _ h => by cases h)
      ⟨fun _ h => (by cases h), fun _ _ _ h => (by cases h), fun _ _ _ h => (by cases h)⟩⟩

/-! ## The hook pipeline -/

theorem hookSession_order {σ : Type} (S : Store σ) (s : Hooked σ) (event : Event)
    (state : State σ) (hok : onEvent S s.State event = .ok state) :
    ∃ post, hookSession S s event
        = .ok { State := state, PreHandler := s.PreHandler,
                effects := s.effects
                  ++ (if s.PreHandler then [HookEffect.PreHandler event] else [])
                  ++ [HookEffect.onEvent event] ++ post } ∧
      post.countP HookEffect.isHandler = 1 ∧
      (∃ seen rest, post = HookEffect.Handler seen :: rest) ∧
      (∀ ev, event = Event.Ready ev →
        post = [HookEffect.Handler event, HookEffect.handleReady ev]) ∧
      (∀ ev, event = Event.GuildCreate ev →
        post = [HookEffect.Handler event, HookEffect.handleGuildCreate ev]) ∧
      (∀ ev, event = Event.GuildDelete ev →
        post = [HookEffect.Handler event, HookEffect.handleGuildDelete ev]) ∧
      (∀ ev member, event = Event.MessageCreate ev → ev.Member = some member →
        post = [HookEffect.Handler (Event.MessageCreate
          { ev with Member := some { member with User := ev.Message.Author } })]) ∧
      (∀ ev member, event = Event.MessageUpdate ev → ev.Member = some member →
        post = [HookEffect.Handler (Event.MessageUpdate
          { ev with Member := some { member with User := ev.Message.Author } })]) := by
  cases hpre : s.PreHandler <;> cases event <;>
    simp only [hookSession, hok, hpre, Bool.false_eq_true, if_false, if_true,
      List.append_nil, List.append_assoc] <;>
    exact ⟨_, rfl, by simp [HookEffect.isHandler, List.countP_cons], ⟨_, _, rfl⟩,
      (by intro ev h; first | (cases h; rfl) | cases h),
      (by intro ev h; first | (cases h; rfl) | cases h),
      (by intro ev h; first | (cases h; rfl) | cases h),
      (by intro ev member h hm; first | (cases h; simp [backfillAuthor, hm]) | cases h),
      (by intro ev member h hm; first | (cases h; simp [backfillAuthor, hm]) | cases h)⟩

/-- C16: the claim fails on the code for the same defect as C15.  With the note mapping
nil, a UserNoteUpdateEvent makes the hook stop inside `onEvent` with the nil-map fault,
so the post-mutation observer is never called.  Whenever `onEvent` completes the order is
the claimed one: the pre-mutation observer (when set) with the raw event, then `onEvent`,
then the post-mutation observer exactly once, followed by the follow-up hook for a
ReadyEvent, GuildCreateEvent or GuildDeleteEvent; for a MessageCreateEvent or
MessageUpdateEvent with an embedded member the observer sees the member's user set to the
author. -/
theorem hook_stops_on_note_update_fault :
    (freshHook.State.Ready.Notes = none ∧
      hookSession emptyStore freshHook (Event.UserNoteUpdate sampleNote)
        = .error Panic.nilMapWrite) ∧
    (∀ (σ : Type) (S : Store σ) (s : Hooked σ) (event : Event) (state : State σ),
      onEvent S s.State event = .ok state →
      ∃ post, hookSession S s event
          = .ok { State := state, PreHandler := s.PreHandler,
                  effects := s.effects
                    ++ (if s.PreHandler then [HookEffect.PreHandler event] else [])
                    ++ [HookEffect.onEvent event] ++ post } ∧
        post.countP HookEffect.isHandler = 1 ∧
        (∃ seen rest, post = HookEffect.Handler seen :: rest) ∧
        (∀ ev, event = Event.Ready ev →
          post = [HookEffect.Handler event, HookEffect.handleReady ev]) ∧
        (∀ ev, event = Event.GuildCreate ev →
          post = [HookEffect.Handler event, HookEffect.handleGuildCreate ev]) ∧
        (∀ ev, event = Event.GuildDelete ev →
          post = [HookEffect.Handler event, HookEffect.handleGuildDelete ev]) ∧
        (∀ ev member, event = Event.MessageCreate ev → ev.Member = some member →
          post = [HookEffect.Handler (Event.MessageCreate
            { ev with Member := some { member with User := ev.Message.Author } })]) ∧
        (∀ ev member, event = Event.MessageUpdate ev → ev.Member = some member →
          post = [HookEffect.Handler (Event.MessageUpdate
            { ev with Member := some { member with User := ev.Message.Author } })])) :=
  ⟨⟨rfl, rfl⟩, fun _ S s event state hok => hookSession_order S s event state hok⟩

theorem hook_sample_message_create :
    hookSession emptyStore freshHook (Event.MessageCreate sampleCreate)
      = .ok { State :=
                { Store :=
                    { st := 1,
                      calls := [{ call := StoreCall.MessageSet (cachedMessage []),
                                  err := none }] },
                  Ready := freshState.Ready,
                  logged := [] },
              PreHandler := true,
              effects :=
                [HookEffect.PreHandler (Event.MessageCreate sampleCreate),
                 HookEffect.onEvent (Event.MessageCreate sampleCreate),
                 HookEffect.Handler (Event.MessageCreate
                   { Message := cachedMessage [],
                     Member := some { User := bob, Nick := "bobby", RoleIDs := [],
                                      Deaf := false, Mute := false } })] } :=
  rfl

theorem hook_stops_on_note_update_fault_witness :
    (onEvent emptyStore freshHook.State (Event.GuildDelete { ID := 7, Unavailable := false })
        = .ok { Store :=
                  { st := 1, calls := [{ call := StoreCall.GuildRemove 7, err := none }] },
                Ready := freshState.Ready,
                logged := [] }) ∧
      ∃ post, hookSession emptyStore freshHook
            (Event.GuildDelete { ID := 7, Unavailable := false })
          = .ok { State :=
                    { Store :=
                        { st := 1,
                          calls := [{ call := StoreCall.GuildRemove 7, err := none }] },
                      Ready := freshState.Ready,
                      logged := [] },
                  PreHandler := true,
                  effects :=
                    [HookEffect.PreHandler
                       (Event.GuildDelete { ID := 7, Unavailable := false }),
                     HookEffect.onEvent
                       (Event.GuildDelete { ID := 7, Unavailable := false })] ++ post } ∧
        post = [HookEffect.Handler (Event.GuildDelete { ID := 7, Unavailable := false }),
                HookEffect.handleGuildDelete { ID := 7, Unavailable := false }] := by
  refine ⟨rfl, ?_⟩
  obtain ⟨post, hrun, _, _, _, _, hdel, _⟩ :=
    hook_stops_on_note_update_fault.2 Nat emptyStore freshHook
      (Event.GuildDelete { ID := 7, Unavailable := false }) _ rfl
  exact ⟨post, hrun, hdel _ rfl⟩

/-! ## Pull vectors -/

theorem PullVector.body_then_return (pv : PullVector) :
    (PullVector.CreateVector.body pv).ReturnVector
      = .ok (if pv.Around > 0 then pv.Around else if pv.Before > 0 then pv.Before
              else pv.After, pv.Limit) := by
  unfold PullVector.CreateVector.body
  by_cases ha : pv.Around > 0
  · simp [ha, PullVector.ReturnVector]
  · by_cases hb : pv.Before > 0
    · simp [ha, hb, PullVector.ReturnVector]
    · simp [ha, hb, PullVector.ReturnVector]

/-- C20: the claim fails on the code.  `CreateVector` has a value receiver, so the
`Decide` it sets is lost: called on a vector whose `Decide` is nil and followed by
`ReturnVector`, the code dereferences nil (for every such vector), where the claim
promises the Around, Before or After id with the limit.  A `Decide` set beforehand is
returned as it is, whatever Around, Before and After hold.  Only the body of
`CreateVector`, run on the record `ReturnVector` then reads, gives what the claim
states. -/
theorem create_vector_loses_decide :
    (samplePull.Decide = none ∧
      samplePull.CreateVector.ReturnVector = .error Panic.nilDereference) ∧
    (∀ pv : PullVector, pv.Decide = none →
      pv.CreateVector.ReturnVector = .error Panic.nilDereference) ∧
    (∀ (pv : PullVector) (id : Snowflake), pv.Decide = some id →
      pv.CreateVector.ReturnVector = .ok (id, pv.Limit)) ∧
    (∀ pv : PullVector,
      (PullVector.CreateVector.body pv).ReturnVector
        = .ok (if pv.Around > 0 then pv.Around else if pv.Before > 0 then pv.Before
                else pv.After, pv.Limit)) := by
  refine ⟨⟨rfl, rfl⟩, ?_, ?_, PullVector.body_then_return⟩
  · intro pv h
    simp [PullVector.CreateVector, PullVector.ReturnVector, h]
  · intro pv id h
    simp [PullVector.CreateVector, PullVector.ReturnVector, h]

theorem create_vector_loses_decide_witness :
    ({ samplePull with Decide := some 9 } : PullVector).Decide = some 9 ∧
      ({ samplePull with Decide := some 9 } : PullVector).CreateVector.ReturnVector
        = .ok (9, 10) :=
  ⟨rfl, create_vector_loses_decide.2.2.1 { samplePull with Decide := some 9 } 9 rfl⟩

end Arikawa
